import Mathlib

/-!
# Verification of the NASA-style static analyzer (`src/main.rs`, `src/config.rs`)

A shallow embedding of the rule-checking engine of the `nasa-static-analyzer`
repository.  The Rust program walks a `lang_c` AST with a visitor
(`impl Visit for StaticAnalyzer`), maintaining a symbol table, the name of the
current function, and the active cast type, and prints one diagnostic per rule
violation.  Here the AST is embedded as a mutual inductive family, the visitor
as a family of mutually recursive functions threading the analyzer state and
returning the emitted diagnostics in print order, and each `check_*` helper of
the Rust source as a Lean function of the same name.

Modelling notes (all simplifications are outside what any rule inspects):
* AST node kinds that no rule and no visited child can reach (struct/enum
  payloads of type specifiers, abstract declarators inside type names and
  declarators, aggregate initializer lists, static asserts, GNU statement
  expressions) are omitted; the embedded constructors mirror exactly the
  fields read by `src/main.rs`.
* `lang_c::span::Node` wrappers are flattened: a span is attached at each
  reference whose span the visitor actually passes on (statements, block
  items, while statements, call and cast expressions, declarations, function
  definitions).
* Rust's `HashMap<String, Symbol>` is modelled as an association list whose
  `insert` prepends and whose `get` returns the most recent binding; through
  `insert`/`get` this has exactly the overwrite semantics of `HashMap`.
* Diagnostics are printed with `println!`; the model returns them as a list,
  tagged with the emitting rule, each list entry holding the printed lines.
-/

namespace Nasa

/-- Byte span of an AST node.  `stop` models the Rust field `span.end`
(`end` is a Lean keyword). -/
structure Span where
  start : Nat
  stop : Nat
deriving DecidableEq, Repr

/-- `lang_c::ast::TypeSpecifier` (payload-free subset; the analyzer only
clones specifiers and compares them against `Void`). -/
inductive TypeSpecifier where
  | void
  | char
  | short
  | int
  | long
  | float
  | double
  | signed
  | unsigned
deriving DecidableEq, Repr

/-- `lang_c::ast::BinaryOperator` (representative subset: the five relational
operators the loop-bounds rule matches, plus non-relational operators that
fall into its wildcard arm). -/
inductive BinaryOperator where
  | less
  | lessOrEqual
  | greater
  | greaterOrEqual
  | equals
  | notEquals
  | plus
  | minus
  | multiply
  | assign
  | logicalAnd
deriving DecidableEq, Repr

/-- `lang_c::ast::SpecifierQualifier`: entry of a type name's specifier list. -/
inductive SpecifierQualifier where
  | typeSpecifier (t : TypeSpecifier)
  | typeQualifier
deriving DecidableEq, Repr

/-- `lang_c::ast::TypeName`: only the specifier list is inspected by the
analyzer (`cast_expression.type_name.node.specifiers.first()`). -/
structure TypeName where
  specifiers : List SpecifierQualifier
deriving DecidableEq, Repr

/-- `lang_c::ast::DerivedDeclarator`.  The analyzer only tests whether the
first derived declarator is `KRFunction(_)`. -/
inductive DerivedDeclarator where
  | pointer
  | array
  | function
  | krFunction (params : List String)
  | block
deriving DecidableEq, Repr

/-- `lang_c::ast::DeclaratorKind`.  The analyzer only matches `Identifier`. -/
inductive DeclaratorKind where
  | identifier (name : String)
  | abstractDecl
deriving DecidableEq, Repr

/-- `lang_c::ast::Declarator` (kind and derived list; nested declarators and
extensions are not inspected by any rule). -/
structure Declarator where
  kind : DeclaratorKind
  derived : List DerivedDeclarator
deriving DecidableEq, Repr

/-- `lang_c::ast::DeclarationSpecifier` (payload-free subset). -/
inductive DeclarationSpecifier where
  | typeSpecifier (t : TypeSpecifier)
  | storageClass
  | typeQualifier
deriving DecidableEq, Repr

/-- `config.rs`: the `RuleSet` struct, one boolean toggle per rule. -/
structure RuleSet where
  restrict_goto : Bool
  restrict_setjmp : Bool
  restrict_longjmp : Bool
  restrict_recursion : Bool
  fixed_loop_bounds : Bool
  restrict_heap_allocation : Bool
  restrict_function_size : Bool
  check_return_value : Bool
deriving DecidableEq, Repr

/-- `main.rs`: `enum SymbolType`. -/
inductive SymbolType where
  | function (return_type : TypeSpecifier)
  | variable
deriving DecidableEq, Repr

/-- `main.rs`: `struct Symbol`. -/
structure Symbol where
  name : String
  symbol_type : SymbolType
deriving DecidableEq, Repr

/-- `HashMap<String, Symbol>` modelled as an association list (newest binding
first). -/
abbrev SymbolTable := List (String × Symbol)

/-- `HashMap::insert`: the new binding shadows any previous binding for the
same key (last-write-wins, observed through `SymbolTable.get`). -/
def SymbolTable.insert (t : SymbolTable) (key : String) (value : Symbol) :
    SymbolTable :=
  (key, value) :: t

/-- `HashMap::get`. -/
def SymbolTable.get (t : SymbolTable) (key : String) : Option Symbol :=
  (t.find? (fun p => p.1 = key)).map (fun p => p.2)

/-- `main.rs`: `struct StaticAnalyzer`. -/
structure StaticAnalyzer where
  rule_set : RuleSet
  symbol_table : SymbolTable
  current_function_type_cast : Option TypeSpecifier
  source : String
  current_function : Option String
deriving DecidableEq, Repr

/-- `StaticAnalyzer::new`. -/
def StaticAnalyzer.new (rule_set : RuleSet) (source : String) :
    StaticAnalyzer :=
  { rule_set := rule_set
    symbol_table := []
    current_function_type_cast := none
    source := source
    current_function := none }

/-- Identifier of the rule that emitted a diagnostic (the spec's "rule
identifier" field of a `Diagnostic`). -/
inductive Rule where
  | gotoRule
  | setjmpRule
  | longjmpRule
  | recursionRule
  | loopBounds
  | heapUsage
  | functionSize
  | returnValue
deriving DecidableEq, Repr

/-- One finding: the emitting rule plus the exact lines printed by
`println!` for it, in print order. -/
structure Diagnostic where
  rule : Rule
  lines : List String
deriving DecidableEq, Repr

/-- The diagnostics of a run that belong to one rule. -/
def diagsFor (r : Rule) (ds : List Diagnostic) : List Diagnostic :=
  ds.filter (fun d => d.rule = r)

/-- Modelled from the spec: the external source resolver
(`lang_c::loc::get_location_for_offset`), which maps a byte offset to a
1-based line number.  The line of an offset is one more than the number of
newline characters strictly before it. -/
def get_line_number (source : String) (span_point : Nat) : Nat :=
  1 + ((source.toList.take span_point).filter (fun c => c = '\n')).length

/-- `StaticAnalyzer::get_source_code_from_span`: the literal source slice for
the span followed by a caret underline of the same width. -/
def get_source_code_from_span (source : String) (span : Span) : String :=
  let source_line := String.mk ((source.toList.drop span.start).take (span.stop - span.start))
  let squiggles := String.mk (List.replicate (span.stop - span.start) '^')
  source_line ++ "\n" ++ squiggles

/-- Message printed by `check_goto`. -/
def gotoMessage (n : Nat) : String :=
  "Error: \x27goto\x27 statement found at line " ++ toString n

/-- Message printed by `check_setjmp`. -/
def setjmpMessage (n : Nat) : String :=
  "Error: \x27setjmp\x27 call found at line " ++ toString n

/-- Message printed by `check_longjmp`. -/
def longjmpMessage (n : Nat) : String :=
  "Error: \x27longjmp\x27 call found at line " ++ toString n

/-- Message printed by `check_recursion`. -/
def recursionMessage (n : Nat) : String :=
  "Error: Recursion found at line " ++ toString n

/-- Message printed by `check_while_loop_bounds`. -/
def loopBoundsMessage (n : Nat) : String :=
  "Error: Loop at line " ++ toString n ++ " does not have fixed bounds"

/-- Message printed by `check_heap_usage`. -/
def heapMessage (n : Nat) : String :=
  "Error: Heap usage found at line " ++ toString n

/-- Message printed in `visit_function_definition` for the size rule. -/
def functionSizeMessage (n : Nat) : String :=
  "Error: Function size exceeds 60 lines at line " ++ toString n

/-- Message printed by `check_return_value`. -/
def returnValueMessage (n : Nat) : String :=
  "Error: Call to non-void function at line " ++ toString n ++
    " does not handle the return value"

mutual

/-- `lang_c::ast::Expression` (subset reachable by the analyzer's rules). -/
inductive Expression where
  | identifier (name : String)
  | constant (value : String)
  | call (c : CallExpression) (span : Span)
  | cast (c : CastExpression) (span : Span)
  | binaryOperator (b : BinaryOperatorExpression)

/-- `lang_c::ast::CallExpression`: callee and argument list. -/
inductive CallExpression where
  | mk (callee : Expression) (arguments : ExpressionList)

/-- `lang_c::ast::CastExpression`: type name and operand. -/
inductive CastExpression where
  | mk (type_name : TypeName) (expression : Expression)

/-- `lang_c::ast::BinaryOperatorExpression`. -/
inductive BinaryOperatorExpression where
  | mk (operator : BinaryOperator) (lhs : Expression) (rhs : Expression)

/-- Spine for `Vec<Node<Expression>>`. -/
inductive ExpressionList where
  | nil
  | cons (e : Expression) (rest : ExpressionList)

/-- `lang_c::ast::Initializer` (expression initializers; aggregate lists are
not inspected by any rule). -/
inductive Initializer where
  | expression (e : Expression)

/-- `Option<Node<Initializer>>`. -/
inductive OptInitializer where
  | noneI
  | someI (i : Initializer)

/-- `lang_c::ast::InitDeclarator`. -/
inductive InitDeclarator where
  | mk (declarator : Declarator) (initializer : OptInitializer)

/-- Spine for `Vec<Node<InitDeclarator>>`. -/
inductive InitDeclaratorList where
  | nil
  | cons (d : InitDeclarator) (rest : InitDeclaratorList)

/-- `lang_c::ast::Declaration`. -/
inductive Declaration where
  | mk (specifiers : List DeclarationSpecifier) (declarators : InitDeclaratorList)

/-- `Option<Box<Node<Expression>>>` in an expression statement. -/
inductive OptExpression where
  | noneE
  | someE (e : Expression)

/-- `lang_c::ast::Statement` (subset reachable by the analyzer's rules; the
span attached to `whileStmt` is the span of the `Node<WhileStatement>`). -/
inductive Statement where
  | compound (items : BlockItemList)
  | expressionStmt (e : OptExpression)
  | goto (label : String)
  | whileStmt (w : WhileStatement) (span : Span)

/-- `lang_c::ast::WhileStatement`: condition, body, and the span of the body
statement node. -/
inductive WhileStatement where
  | mk (expression : Expression) (statement : Statement) (statementSpan : Span)

/-- `lang_c::ast::BlockItem` with the span of the inner node. -/
inductive BlockItem where
  | declaration (d : Declaration) (span : Span)
  | statement (s : Statement) (span : Span)

/-- Spine for `Vec<Node<BlockItem>>`. -/
inductive BlockItemList where
  | nil
  | cons (b : BlockItem) (rest : BlockItemList)

end

/-- `lang_c::ast::FunctionDefinition`: specifiers, declarator, K&R parameter
declarations (with their node spans), and body statement (with its node
span). -/
structure FunctionDefinition where
  specifiers : List DeclarationSpecifier
  declarator : Declarator
  declarations : List (Declaration × Span)
  statement : Statement
  statementSpan : Span

/-- `lang_c::ast::ExternalDeclaration` with the span of the inner node. -/
inductive ExternalDeclaration where
  | declaration (d : Declaration) (span : Span)
  | functionDefinition (f : FunctionDefinition) (span : Span)

/-- `lang_c::ast::TranslationUnit`. -/
abbrev TranslationUnit := List ExternalDeclaration

/-- `StaticAnalyzer::check_goto`. -/
def check_goto (a : StaticAnalyzer) (statement : Statement) (span : Span) :
    List Diagnostic :=
  match statement with
  | .goto _ => [⟨.gotoRule, [gotoMessage (get_line_number a.source span.start)]⟩]
  | _ => []

/-- `StaticAnalyzer::check_setjmp`. -/
def check_setjmp (a : StaticAnalyzer) (call_expression : CallExpression)
    (span : Span) : List Diagnostic :=
  match call_expression with
  | .mk (.identifier name) _ =>
    if name = "setjmp" then
      [⟨.setjmpRule, [setjmpMessage (get_line_number a.source span.start)]⟩]
    else []
  | _ => []

/-- `StaticAnalyzer::check_longjmp`. -/
def check_longjmp (a : StaticAnalyzer) (call_expression : CallExpression)
    (span : Span) : List Diagnostic :=
  match call_expression with
  | .mk (.identifier name) _ =>
    if name = "longjmp" then
      [⟨.longjmpRule, [longjmpMessage (get_line_number a.source span.start)]⟩]
    else []
  | _ => []

/-- `StaticAnalyzer::set_current_function`. -/
def set_current_function (a : StaticAnalyzer)
    (function_definition : FunctionDefinition) : StaticAnalyzer :=
  match function_definition.declarator.kind with
  | .identifier name => { a with current_function := some name }
  | _ => a

/-- `StaticAnalyzer::check_recursion`. -/
def check_recursion (a : StaticAnalyzer) (call_expression : CallExpression)
    (span : Span) : List Diagnostic :=
  match call_expression with
  | .mk (.identifier name) _ =>
    match a.current_function with
    | some current_function =>
      if name = current_function then
        [⟨.recursionRule, [recursionMessage (get_line_number a.source span.start)]⟩]
      else []
    | none => []
  | _ => []

/-- The `matches!(e, Expression::Constant(_))` test of
`check_while_loop_bounds`. -/
def isConstant : Expression → Bool
  | .constant _ => true
  | _ => false

/-- `StaticAnalyzer::check_while_loop_bounds`: silent when the condition is a
relational comparison with a constant on at least one side, a finding
otherwise. -/
def check_while_loop_bounds (a : StaticAnalyzer)
    (while_statement : WhileStatement) (span : Span) : List Diagnostic :=
  let bounded : Bool :=
    match while_statement with
    | .mk condition _ _ =>
      match condition with
      | .binaryOperator (.mk operator lhs rhs) =>
        match operator with
        | .less | .lessOrEqual | .greater | .greaterOrEqual | .equals =>
          isConstant lhs || isConstant rhs
        | _ => false
      | _ => false
  if bounded then []
  else [⟨.loopBounds, [loopBoundsMessage (get_line_number a.source span.start)]⟩]

/-- `StaticAnalyzer::check_heap_usage`. -/
def check_heap_usage (a : StaticAnalyzer) (call_expression : CallExpression)
    (span : Span) : List Diagnostic :=
  match call_expression with
  | .mk (.identifier name) _ =>
    if name ∈ ["malloc", "calloc", "realloc", "free"] then
      [⟨.heapUsage, [heapMessage (get_line_number a.source span.start),
                     get_source_code_from_span a.source span]⟩]
    else []
  | _ => []

/-- `StaticAnalyzer::check_return_value`. -/
def check_return_value (a : StaticAnalyzer) (call_expression : CallExpression)
    (span : Span) : List Diagnostic :=
  match call_expression with
  | .mk (.identifier name) _ =>
    match a.symbol_table.get name with
    | some symbol =>
      match symbol.symbol_type with
      | .function return_type =>
        if return_type ≠ .void then
          if a.current_function_type_cast.isNone then
            [⟨.returnValue,
              [returnValueMessage (get_line_number a.source span.start),
               get_source_code_from_span a.source span]⟩]
          else []
        else []
      | .variable => []
    | none => []
  | _ => []

/-- `StaticAnalyzer::add_function_to_symbol_table`: registers a K&R-style
function prototype (`int f();`) found in a declaration, examining only the
first init declarator.  When the declaration has no declarators, the Rust
code calls the free `visit_declaration` on the whole declaration and
returns (re-visiting the specifier children, which carry no diagnostics in
this model), so the state is returned unchanged here. -/
def add_function_to_symbol_table (a : StaticAnalyzer) (declaration : Declaration)
    (_span : Span) : StaticAnalyzer × List Diagnostic :=
  match declaration with
  | .mk specifiers declarators =>
    match declarators with
    | .nil => (a, [])
    | .cons init_declarator _ =>
      match init_declarator with
      | .mk declarator _initializer =>
        match declarator.derived.head? with
        | some (.krFunction _) =>
          match declarator.kind with
          | .identifier name =>
            let return_type : TypeSpecifier :=
              match specifiers with
              | [.typeSpecifier t] => t
              | _ => .void
            ({ a with symbol_table :=
                a.symbol_table.insert name ⟨name, .function return_type⟩ }, [])
          | _ => (a, [])
        | _ => (a, [])

mutual

/-- Overridden `visit_expression` (delegates to the free visitor, which
dispatches on the node kind; leaf kinds are no-ops). -/
def visitExpression (a : StaticAnalyzer) (e : Expression) :
    StaticAnalyzer × List Diagnostic :=
  match e with
  | .identifier _ => (a, [])
  | .constant _ => (a, [])
  | .call c span => visitCallExpression a c span
  | .cast c span => visitCastExpression a c span
  | .binaryOperator b => visitBinaryOperatorExpression a b

/-- Default `visit_binary_operator_expression`: operator (leaf), lhs, rhs. -/
def visitBinaryOperatorExpression (a : StaticAnalyzer)
    (b : BinaryOperatorExpression) : StaticAnalyzer × List Diagnostic :=
  match b with
  | .mk _operator lhs rhs =>
    let r1 := visitExpression a lhs
    let r2 := visitExpression r1.1 rhs
    (r2.1, r1.2 ++ r2.2)

/-- Overridden `visit_call_expression`: runs the enabled call rules, then the
free visitor (callee, then arguments). -/
def visitCallExpression (a : StaticAnalyzer) (c : CallExpression) (span : Span) :
    StaticAnalyzer × List Diagnostic :=
  let d1 := if a.rule_set.restrict_recursion then check_recursion a c span else []
  let d2 := if a.rule_set.restrict_setjmp then check_setjmp a c span else []
  let d3 := if a.rule_set.restrict_longjmp then check_longjmp a c span else []
  let d4 := if a.rule_set.restrict_heap_allocation then check_heap_usage a c span else []
  let d5 := if a.rule_set.check_return_value then check_return_value a c span else []
  match c with
  | .mk callee arguments =>
    let r1 := visitExpression a callee
    let r2 := visitExpressionList r1.1 arguments
    (r2.1, d1 ++ d2 ++ d3 ++ d4 ++ d5 ++ r1.2 ++ r2.2)

/-- Overridden `visit_cast_expression`: returns without visiting children
when the type name has no specifiers; otherwise records the cast type (when
the first specifier is a type specifier), visits the children, and
unconditionally clears the cast state. -/
def visitCastExpression (a : StaticAnalyzer) (c : CastExpression) (_span : Span) :
    StaticAnalyzer × List Diagnostic :=
  match c with
  | .mk type_name operand =>
    match type_name.specifiers with
    | [] => (a, [])
    | specifier :: _ =>
      let a1 :=
        match specifier with
        | .typeSpecifier t => { a with current_function_type_cast := some t }
        | _ => a
      let r := visitExpression a1 operand
      ({ r.1 with current_function_type_cast := none }, r.2)

/-- Free visitor over `Vec<Node<Expression>>` (call arguments). -/
def visitExpressionList (a : StaticAnalyzer) (es : ExpressionList) :
    StaticAnalyzer × List Diagnostic :=
  match es with
  | .nil => (a, [])
  | .cons e rest =>
    let r1 := visitExpression a e
    let r2 := visitExpressionList r1.1 rest
    (r2.1, r1.2 ++ r2.2)

/-- Overridden `visit_declaration`: registers a prototype when the
return-value rule is enabled, then the free visitor over the children. -/
def visitDeclaration (a : StaticAnalyzer) (d : Declaration) (span : Span) :
    StaticAnalyzer × List Diagnostic :=
  let r0 :=
    if a.rule_set.check_return_value then add_function_to_symbol_table a d span
    else (a, [])
  let r1 := visitDeclarationChildren r0.1 d
  (r1.1, r0.2 ++ r1.2)

/-- Free `visit_declaration`: specifiers (leaves here), then declarators. -/
def visitDeclarationChildren (a : StaticAnalyzer) (d : Declaration) :
    StaticAnalyzer × List Diagnostic :=
  match d with
  | .mk _specifiers declarators => visitInitDeclaratorList a declarators

/-- Free visitor over `Vec<Node<InitDeclarator>>`. -/
def visitInitDeclaratorList (a : StaticAnalyzer) (ds : InitDeclaratorList) :
    StaticAnalyzer × List Diagnostic :=
  match ds with
  | .nil => (a, [])
  | .cons d rest =>
    let r1 := visitInitDeclarator a d
    let r2 := visitInitDeclaratorList r1.1 rest
    (r2.1, r1.2 ++ r2.2)

/-- Free `visit_init_declarator`: declarator (leaf here), then initializer. -/
def visitInitDeclarator (a : StaticAnalyzer) (d : InitDeclarator) :
    StaticAnalyzer × List Diagnostic :=
  match d with
  | .mk _declarator initializer =>
    match initializer with
    | .noneI => (a, [])
    | .someI (.expression e) => visitExpression a e

/-- Overridden `visit_statement`: the goto rule, then the free visitor, which
dispatches compound blocks, expression statements, gotos and while loops. -/
def visitStatement (a : StaticAnalyzer) (s : Statement) (span : Span) :
    StaticAnalyzer × List Diagnostic :=
  let d0 := if a.rule_set.restrict_goto then check_goto a s span else []
  let r1 :=
    match s with
    | .compound items => visitBlockItemList a items
    | .expressionStmt oe =>
      match oe with
      | .noneE => (a, [])
      | .someE e => visitExpression a e
    | .goto _ => (a, [])
    | .whileStmt w wspan => visitWhileStatement a w wspan
  (r1.1, d0 ++ r1.2)

/-- Overridden `visit_while_statement`: the loop-bounds rule, then the free
visitor (condition, then body). -/
def visitWhileStatement (a : StaticAnalyzer) (w : WhileStatement) (span : Span) :
    StaticAnalyzer × List Diagnostic :=
  let d0 := if a.rule_set.fixed_loop_bounds then check_while_loop_bounds a w span else []
  match w with
  | .mk condition body bodySpan =>
    let r1 := visitExpression a condition
    let r2 := visitStatement r1.1 body bodySpan
    (r2.1, d0 ++ r1.2 ++ r2.2)

/-- Free visitor over `Vec<Node<BlockItem>>`. -/
def visitBlockItemList (a : StaticAnalyzer) (bs : BlockItemList) :
    StaticAnalyzer × List Diagnostic :=
  match bs with
  | .nil => (a, [])
  | .cons b rest =>
    let r1 := visitBlockItem a b
    let r2 := visitBlockItemList r1.1 rest
    (r2.1, r1.2 ++ r2.2)

/-- Free `visit_block_item`: dispatches to the overridden declaration or
statement visitor with the inner node span. -/
def visitBlockItem (a : StaticAnalyzer) (b : BlockItem) :
    StaticAnalyzer × List Diagnostic :=
  match b with
  | .declaration d span => visitDeclaration a d span
  | .statement s span => visitStatement a s span

end

/-- Free visitor over the K&R parameter declarations of a function
definition. -/
def visitDeclarationList (a : StaticAnalyzer) (ds : List (Declaration × Span)) :
    StaticAnalyzer × List Diagnostic :=
  match ds with
  | [] => (a, [])
  | (d, span) :: rest =>
    let r1 := visitDeclaration a d span
    let r2 := visitDeclarationList r1.1 rest
    (r2.1, r1.2 ++ r2.2)

/-- The registration block at the start of `visit_function_definition`
(`main.rs` lines 240-262): a named function definition is inserted into the
symbol table unconditionally, with its return type read from a singleton
type-specifier list and defaulting to void. -/
def register_function_definition (a : StaticAnalyzer) (f : FunctionDefinition) :
    StaticAnalyzer :=
  match f.declarator.kind with
  | .identifier name =>
    let return_type : TypeSpecifier :=
      match f.specifiers with
      | [.typeSpecifier t] => t
      | _ => .void
    { a with symbol_table :=
        a.symbol_table.insert name ⟨name, .function return_type⟩ }
  | _ => a

/-- The analyzer state when `visit_function_definition` reaches the size
check: registration, then (when the recursion rule is enabled) recording the
current function. -/
def visit_function_definition_state (a : StaticAnalyzer)
    (f : FunctionDefinition) : StaticAnalyzer :=
  let a1 := register_function_definition a f
  if a1.rule_set.restrict_recursion then set_current_function a1 f else a1

/-- The function-size block of `visit_function_definition` (`main.rs` lines
268-280): when the size rule is enabled and the line span exceeds the fixed
threshold of 60, one diagnostic at the start line. -/
def function_size_diags (a : StaticAnalyzer) (span : Span) : List Diagnostic :=
  if a.rule_set.restrict_function_size then
    let start_line := get_line_number a.source span.start
    let end_line := get_line_number a.source span.stop
    let size := end_line - start_line + 1
    if size > 60 then [⟨.functionSize, [functionSizeMessage start_line]⟩]
    else []
  else []

/-- Overridden `visit_function_definition`: registers the function in the
symbol table (unconditionally), records the current function for the
recursion rule, applies the fixed 60-line size rule, visits the children,
and finally clears `current_function`. -/
def visitFunctionDefinition (a : StaticAnalyzer) (f : FunctionDefinition)
    (span : Span) : StaticAnalyzer × List Diagnostic :=
  let a2 := visit_function_definition_state a f
  let d0 := function_size_diags a2 span
  let r1 := visitDeclarationList a2 f.declarations
  let r2 := visitStatement r1.1 f.statement f.statementSpan
  ({ r2.1 with current_function := none }, d0 ++ r1.2 ++ r2.2)

/-- Free `visit_external_declaration`. -/
def visitExternalDeclaration (a : StaticAnalyzer) (e : ExternalDeclaration) :
    StaticAnalyzer × List Diagnostic :=
  match e with
  | .declaration d span => visitDeclaration a d span
  | .functionDefinition f span => visitFunctionDefinition a f span

/-- Free `visit_translation_unit`. -/
def visitTranslationUnit (a : StaticAnalyzer) (tu : TranslationUnit) :
    StaticAnalyzer × List Diagnostic :=
  match tu with
  | [] => (a, [])
  | e :: rest =>
    let r1 := visitExternalDeclaration a e
    let r2 := visitTranslationUnit r1.1 rest
    (r2.1, r1.2 ++ r2.2)

/-- `main`: build a fresh analyzer for the parsed unit and run the visitor;
the result is the ordered list of diagnostics. -/
def analyze (rule_set : RuleSet) (source : String) (tu : TranslationUnit) :
    List Diagnostic :=
  (visitTranslationUnit (StaticAnalyzer.new rule_set source) tu).2

/-! ## Helper lemmas -/

/-- The toggle of `RuleSet` that gates each rule. -/
def ruleEnabled (rs : RuleSet) : Rule → Bool
  | .gotoRule => rs.restrict_goto
  | .setjmpRule => rs.restrict_setjmp
  | .longjmpRule => rs.restrict_longjmp
  | .recursionRule => rs.restrict_recursion
  | .loopBounds => rs.fixed_loop_bounds
  | .heapUsage => rs.restrict_heap_allocation
  | .functionSize => rs.restrict_function_size
  | .returnValue => rs.check_return_value

theorem diagsFor_append (r : Rule) (xs ys : List Diagnostic) :
    diagsFor r (xs ++ ys) = diagsFor r xs ++ diagsFor r ys :=
  List.filter_append ..

theorem diagsFor_eq_nil {r : Rule} {ds : List Diagnostic}
    (h : ∀ d ∈ ds, d.rule ≠ r) : diagsFor r ds = [] := by
  rw [diagsFor, List.filter_eq_nil_iff]
  intro d hd
  simpa using h d hd

theorem check_goto_tags (a : StaticAnalyzer) (s : Statement) (span : Span) :
    ∀ d ∈ check_goto a s span, d.rule = .gotoRule := by
  unfold check_goto
  split
  all_goals simp

theorem check_setjmp_tags (a : StaticAnalyzer) (c : CallExpression) (span : Span) :
    ∀ d ∈ check_setjmp a c span, d.rule = .setjmpRule := by
  unfold check_setjmp
  split
  · split <;> simp
  · simp

theorem check_longjmp_tags (a : StaticAnalyzer) (c : CallExpression) (span : Span) :
    ∀ d ∈ check_longjmp a c span, d.rule = .longjmpRule := by
  unfold check_longjmp
  split
  · split <;> simp
  · simp

theorem check_recursion_tags (a : StaticAnalyzer) (c : CallExpression) (span : Span) :
    ∀ d ∈ check_recursion a c span, d.rule = .recursionRule := by
  unfold check_recursion
  split
  · split
    · split <;> simp
    · simp
  · simp

theorem check_while_loop_bounds_tags (a : StaticAnalyzer) (w : WhileStatement)
    (span : Span) : ∀ d ∈ check_while_loop_bounds a w span, d.rule = .loopBounds := by
  unfold check_while_loop_bounds
  split
  all_goals simp

theorem check_heap_usage_tags (a : StaticAnalyzer) (c : CallExpression) (span : Span) :
    ∀ d ∈ check_heap_usage a c span, d.rule = .heapUsage := by
  unfold check_heap_usage
  split
  · split <;> simp
  · simp

theorem check_return_value_tags (a : StaticAnalyzer) (c : CallExpression) (span : Span) :
    ∀ d ∈ check_return_value a c span, d.rule = .returnValue := by
  unfold check_return_value
  split
  · split
    · split
      · split
        · split <;> simp
        · simp
      · simp
    · simp
  · simp

/-- A rule-gated check contributes nothing to `diagsFor r` when either `r` is
a different rule or the gating toggle is off. -/
theorem diagsFor_gated {r tag : Rule} {b : Bool} {l : List Diagnostic}
    (htag : ∀ d ∈ l, d.rule = tag) (h : r = tag → b = false) :
    diagsFor r (if b then l else []) = [] := by
  by_cases hrt : r = tag
  · rw [h hrt]
    rfl
  · cases b
    · rfl
    · simp only [if_pos rfl]
      exact diagsFor_eq_nil (fun d hd => by rw [htag d hd]; exact fun he => hrt he.symm)

theorem add_function_to_symbol_table_fixed (a : StaticAnalyzer)
    (d : Declaration) (span : Span) :
    (add_function_to_symbol_table a d span).1.rule_set = a.rule_set ∧
      (add_function_to_symbol_table a d span).1.source = a.source := by
  unfold add_function_to_symbol_table
  repeat' split
  all_goals exact ⟨rfl, rfl⟩

mutual

theorem visitExpression_fixed (a : StaticAnalyzer) (e : Expression) :
    (visitExpression a e).1.rule_set = a.rule_set ∧
      (visitExpression a e).1.source = a.source := by
  cases e with
  | identifier n => exact ⟨rfl, rfl⟩
  | constant v => exact ⟨rfl, rfl⟩
  | call c span => exact visitCallExpression_fixed a c span
  | cast c span => exact visitCastExpression_fixed a c span
  | binaryOperator b => exact visitBinaryOperatorExpression_fixed a b

theorem visitBinaryOperatorExpression_fixed (a : StaticAnalyzer)
    (b : BinaryOperatorExpression) :
    (visitBinaryOperatorExpression a b).1.rule_set = a.rule_set ∧
      (visitBinaryOperatorExpression a b).1.source = a.source := by
  cases b with
  | mk op lhs rhs =>
    have h1 := visitExpression_fixed a lhs
    have h2 := visitExpression_fixed (visitExpression a lhs).1 rhs
    exact ⟨h2.1.trans h1.1, h2.2.trans h1.2⟩

theorem visitCallExpression_fixed (a : StaticAnalyzer) (c : CallExpression)
    (span : Span) :
    (visitCallExpression a c span).1.rule_set = a.rule_set ∧
      (visitCallExpression a c span).1.source = a.source := by
  cases c with
  | mk callee arguments =>
    have h1 := visitExpression_fixed a callee
    have h2 := visitExpressionList_fixed (visitExpression a callee).1 arguments
    exact ⟨h2.1.trans h1.1, h2.2.trans h1.2⟩

theorem visitCastExpression_fixed (a : StaticAnalyzer) (c : CastExpression)
    (span : Span) :
    (visitCastExpression a c span).1.rule_set = a.rule_set ∧
      (visitCastExpression a c span).1.source = a.source := by
  cases c with
  | mk type_name operand =>
    cases hs : type_name.specifiers with
    | nil => simp [visitCastExpression, hs]
    | cons specifier rest =>
      cases specifier with
      | typeSpecifier t =>
        have h := visitExpression_fixed
          { a with current_function_type_cast := some t } operand
        simp only [visitCastExpression, hs]
        exact ⟨h.1, h.2⟩
      | typeQualifier =>
        have h := visitExpression_fixed a operand
        simp only [visitCastExpression, hs]
        exact ⟨h.1, h.2⟩

theorem visitExpressionList_fixed (a : StaticAnalyzer) (es : ExpressionList) :
    (visitExpressionList a es).1.rule_set = a.rule_set ∧
      (visitExpressionList a es).1.source = a.source := by
  cases es with
  | nil => exact ⟨rfl, rfl⟩
  | cons e rest =>
    have h1 := visitExpression_fixed a e
    have h2 := visitExpressionList_fixed (visitExpression a e).1 rest
    exact ⟨h2.1.trans h1.1, h2.2.trans h1.2⟩

theorem visitDeclaration_fixed (a : StaticAnalyzer) (d : Declaration)
    (span : Span) :
    (visitDeclaration a d span).1.rule_set = a.rule_set ∧
      (visitDeclaration a d span).1.source = a.source := by
  have hadd : (if a.rule_set.check_return_value then
      add_function_to_symbol_table a d span else (a, [])).1.rule_set = a.rule_set ∧
      (if a.rule_set.check_return_value then
      add_function_to_symbol_table a d span else (a, [])).1.source = a.source := by
    cases h : a.rule_set.check_return_value
    · rw [if_neg (by simp)]
      exact ⟨rfl, rfl⟩
    · rw [if_pos rfl]
      exact add_function_to_symbol_table_fixed a d span
  have h2 := visitDeclarationChildren_fixed
    (if a.rule_set.check_return_value then
      add_function_to_symbol_table a d span else (a, [])).1 d
  exact ⟨h2.1.trans hadd.1, h2.2.trans hadd.2⟩

theorem visitDeclarationChildren_fixed (a : StaticAnalyzer) (d : Declaration) :
    (visitDeclarationChildren a d).1.rule_set = a.rule_set ∧
      (visitDeclarationChildren a d).1.source = a.source := by
  cases d with
  | mk specifiers declarators => exact visitInitDeclaratorList_fixed a declarators

theorem visitInitDeclaratorList_fixed (a : StaticAnalyzer)
    (ds : InitDeclaratorList) :
    (visitInitDeclaratorList a ds).1.rule_set = a.rule_set ∧
      (visitInitDeclaratorList a ds).1.source = a.source := by
  cases ds with
  | nil => exact ⟨rfl, rfl⟩
  | cons d rest =>
    have h1 := visitInitDeclarator_fixed a d
    have h2 := visitInitDeclaratorList_fixed (visitInitDeclarator a d).1 rest
    exact ⟨h2.1.trans h1.1, h2.2.trans h1.2⟩

theorem visitInitDeclarator_fixed (a : StaticAnalyzer) (d : InitDeclarator) :
    (visitInitDeclarator a d).1.rule_set = a.rule_set ∧
      (visitInitDeclarator a d).1.source = a.source := by
  cases d with
  | mk declarator initializer =>
    cases initializer with
    | noneI => exact ⟨rfl, rfl⟩
    | someI i =>
      cases i with
      | expression e => exact visitExpression_fixed a e

theorem visitStatement_fixed (a : StaticAnalyzer) (s : Statement) (span : Span) :
    (visitStatement a s span).1.rule_set = a.rule_set ∧
      (visitStatement a s span).1.source = a.source := by
  cases s with
  | compound items => exact visitBlockItemList_fixed a items
  | expressionStmt oe =>
    cases oe with
    | noneE => exact ⟨rfl, rfl⟩
    | someE e => exact visitExpression_fixed a e
  | goto label => exact ⟨rfl, rfl⟩
  | whileStmt w wspan => exact visitWhileStatement_fixed a w wspan

theorem visitWhileStatement_fixed (a : StaticAnalyzer) (w : WhileStatement)
    (span : Span) :
    (visitWhileStatement a w span).1.rule_set = a.rule_set ∧
      (visitWhileStatement a w span).1.source = a.source := by
  cases w with
  | mk condition body bodySpan =>
    have h1 := visitExpression_fixed a condition
    have h2 := visitStatement_fixed (visitExpression a condition).1 body bodySpan
    exact ⟨h2.1.trans h1.1, h2.2.trans h1.2⟩

theorem visitBlockItemList_fixed (a : StaticAnalyzer) (bs : BlockItemList) :
    (visitBlockItemList a bs).1.rule_set = a.rule_set ∧
      (visitBlockItemList a bs).1.source = a.source := by
  cases bs with
  | nil => exact ⟨rfl, rfl⟩
  | cons b rest =>
    have h1 := visitBlockItem_fixed a b
    have h2 := visitBlockItemList_fixed (visitBlockItem a b).1 rest
    exact ⟨h2.1.trans h1.1, h2.2.trans h1.2⟩

theorem visitBlockItem_fixed (a : StaticAnalyzer) (b : BlockItem) :
    (visitBlockItem a b).1.rule_set = a.rule_set ∧
      (visitBlockItem a b).1.source = a.source := by
  cases b with
  | declaration d span => exact visitDeclaration_fixed a d span
  | statement s span => exact visitStatement_fixed a s span

end

/-- The rules that can fire while visiting an expression (all of them are
attached to call expressions). -/
def isCallRule : Rule → Bool
  | .recursionRule => true
  | .setjmpRule => true
  | .longjmpRule => true
  | .heapUsage => true
  | .returnValue => true
  | _ => false

theorem isCallRule_ne_functionSize {r : Rule} (h : isCallRule r = true) :
    r ≠ .functionSize := by
  cases r <;> simp_all [isCallRule]

theorem isCallRule_ne_goto {r : Rule} (h : isCallRule r = true) :
    r ≠ .gotoRule := by
  cases r <;> simp_all [isCallRule]

theorem isCallRule_ne_loopBounds {r : Rule} (h : isCallRule r = true) :
    r ≠ .loopBounds := by
  cases r <;> simp_all [isCallRule]

theorem mem_gated {toggle : Bool} {ds : List Diagnostic} {d : Diagnostic}
    (h : d ∈ (if toggle then ds else [])) : d ∈ ds := by
  cases toggle
  · simp at h
  · simpa using h

/-- `add_function_to_symbol_table` never emits a diagnostic. -/
theorem add_function_to_symbol_table_diags (a : StaticAnalyzer)
    (d : Declaration) (span : Span) :
    (add_function_to_symbol_table a d span).2 = [] := by
  unfold add_function_to_symbol_table
  repeat' split
  all_goals rfl

mutual

theorem visitExpression_tags (a : StaticAnalyzer) (e : Expression) :
    ∀ d ∈ (visitExpression a e).2, isCallRule d.rule = true := by
  cases e with
  | identifier n => intro d hd; simp [visitExpression] at hd
  | constant v => intro d hd; simp [visitExpression] at hd
  | call c span => exact visitCallExpression_tags a c span
  | cast c span => exact visitCastExpression_tags a c span
  | binaryOperator b => exact visitBinaryOperatorExpression_tags a b

theorem visitBinaryOperatorExpression_tags (a : StaticAnalyzer)
    (b : BinaryOperatorExpression) :
    ∀ d ∈ (visitBinaryOperatorExpression a b).2, isCallRule d.rule = true := by
  cases b with
  | mk op lhs rhs =>
    intro d hd
    rcases List.mem_append.mp hd with h | h
    · exact visitExpression_tags a lhs d h
    · exact visitExpression_tags (visitExpression a lhs).1 rhs d h

theorem visitCallExpression_tags (a : StaticAnalyzer) (c : CallExpression)
    (span : Span) :
    ∀ d ∈ (visitCallExpression a c span).2, isCallRule d.rule = true := by
  cases c with
  | mk callee arguments =>
    intro d hd
    simp only [visitCallExpression, List.append_assoc] at hd
    rcases List.mem_append.mp hd with h | hd
    · rw [check_recursion_tags a ⟨callee, arguments⟩ span d (mem_gated h)]; rfl
    rcases List.mem_append.mp hd with h | hd
    · rw [check_setjmp_tags a ⟨callee, arguments⟩ span d (mem_gated h)]; rfl
    rcases List.mem_append.mp hd with h | hd
    · rw [check_longjmp_tags a ⟨callee, arguments⟩ span d (mem_gated h)]; rfl
    rcases List.mem_append.mp hd with h | hd
    · rw [check_heap_usage_tags a ⟨callee, arguments⟩ span d (mem_gated h)]; rfl
    rcases List.mem_append.mp hd with h | hd
    · rw [check_return_value_tags a ⟨callee, arguments⟩ span d (mem_gated h)]; rfl
    rcases List.mem_append.mp hd with h | h
    · exact visitExpression_tags a callee d h
    · exact visitExpressionList_tags (visitExpression a callee).1 arguments d h

theorem visitCastExpression_tags (a : StaticAnalyzer) (c : CastExpression)
    (span : Span) :
    ∀ d ∈ (visitCastExpression a c span).2, isCallRule d.rule = true := by
  cases c with
  | mk type_name operand =>
    intro d hd
    cases hs : type_name.specifiers with
    | nil => simp [visitCastExpression, hs] at hd
    | cons specifier rest =>
      cases specifier with
      | typeSpecifier t =>
        simp only [visitCastExpression, hs] at hd
        exact visitExpression_tags
          { a with current_function_type_cast := some t } operand d hd
      | typeQualifier =>
        simp only [visitCastExpression, hs] at hd
        exact visitExpression_tags a operand d hd

theorem visitExpressionList_tags (a : StaticAnalyzer) (es : ExpressionList) :
    ∀ d ∈ (visitExpressionList a es).2, isCallRule d.rule = true := by
  cases es with
  | nil => intro d hd; simp [visitExpressionList] at hd
  | cons e rest =>
    intro d hd
    rcases List.mem_append.mp hd with h | h
    · exact visitExpression_tags a e d h
    · exact visitExpressionList_tags (visitExpression a e).1 rest d h

theorem visitDeclaration_tags (a : StaticAnalyzer) (d : Declaration)
    (span : Span) :
    ∀ x ∈ (visitDeclaration a d span).2, isCallRule x.rule = true := by
  intro x hx
  simp only [visitDeclaration] at hx
  rcases List.mem_append.mp hx with h | h
  · cases hrv : a.rule_set.check_return_value
    · rw [if_neg (by simp [hrv])] at h
      simp at h
    · rw [if_pos hrv, add_function_to_symbol_table_diags] at h
      simp at h
  · exact visitDeclarationChildren_tags _ d x h

theorem visitDeclarationChildren_tags (a : StaticAnalyzer) (d : Declaration) :
    ∀ x ∈ (visitDeclarationChildren a d).2, isCallRule x.rule = true := by
  cases d with
  | mk specifiers declarators => exact visitInitDeclaratorList_tags a declarators

theorem visitInitDeclaratorList_tags (a : StaticAnalyzer)
    (ds : InitDeclaratorList) :
    ∀ x ∈ (visitInitDeclaratorList a ds).2, isCallRule x.rule = true := by
  cases ds with
  | nil => intro x hx; simp [visitInitDeclaratorList] at hx
  | cons d rest =>
    intro x hx
    rcases List.mem_append.mp hx with h | h
    · exact visitInitDeclarator_tags a d x h
    · exact visitInitDeclaratorList_tags (visitInitDeclarator a d).1 rest x h

theorem visitInitDeclarator_tags (a : StaticAnalyzer) (d : InitDeclarator) :
    ∀ x ∈ (visitInitDeclarator a d).2, isCallRule x.rule = true := by
  cases d with
  | mk declarator initializer =>
    cases initializer with
    | noneI => intro x hx; simp [visitInitDeclarator] at hx
    | someI i =>
      cases i with
      | expression e => exact visitExpression_tags a e

theorem visitStatement_tags (a : StaticAnalyzer) (s : Statement) (span : Span) :
    ∀ d ∈ (visitStatement a s span).2, d.rule ≠ .functionSize := by
  intro d hd
  cases s with
  | compound items =>
    simp only [visitStatement] at hd
    rcases List.mem_append.mp hd with h | h
    · rw [check_goto_tags a _ span d (mem_gated h)]; simp
    · exact visitBlockItemList_tags a items d h
  | expressionStmt oe =>
    cases oe with
    | noneE =>
      simp only [visitStatement] at hd
      rcases List.mem_append.mp hd with h | h
      · rw [check_goto_tags a _ span d (mem_gated h)]; simp
      · simp at h
    | someE e =>
      simp only [visitStatement] at hd
      rcases List.mem_append.mp hd with h | h
      · rw [check_goto_tags a _ span d (mem_gated h)]; simp
      · exact isCallRule_ne_functionSize (visitExpression_tags a e d h)
  | goto label =>
    simp only [visitStatement] at hd
    rcases List.mem_append.mp hd with h | h
    · rw [check_goto_tags a _ span d (mem_gated h)]; simp
    · simp at h
  | whileStmt w wspan =>
    simp only [visitStatement] at hd
    rcases List.mem_append.mp hd with h | h
    · rw [check_goto_tags a _ span d (mem_gated h)]; simp
    · exact visitWhileStatement_tags a w wspan d h

theorem visitWhileStatement_tags (a : StaticAnalyzer) (w : WhileStatement)
    (span : Span) :
    ∀ d ∈ (visitWhileStatement a w span).2, d.rule ≠ .functionSize := by
  cases w with
  | mk condition body bodySpan =>
    intro d hd
    simp only [visitWhileStatement, List.append_assoc] at hd
    rcases List.mem_append.mp hd with h | hd
    · rw [check_while_loop_bounds_tags a ⟨condition, body, bodySpan⟩ span d
        (mem_gated h)]
      simp
    rcases List.mem_append.mp hd with h | h
    · exact isCallRule_ne_functionSize (visitExpression_tags a condition d h)
    · exact visitStatement_tags (visitExpression a condition).1 body bodySpan d h

theorem visitBlockItemList_tags (a : StaticAnalyzer) (bs : BlockItemList) :
    ∀ d ∈ (visitBlockItemList a bs).2, d.rule ≠ .functionSize := by
  cases bs with
  | nil => intro d hd; simp [visitBlockItemList] at hd
  | cons b rest =>
    intro d hd
    rcases List.mem_append.mp hd with h | h
    · exact visitBlockItem_tags a b d h
    · exact visitBlockItemList_tags (visitBlockItem a b).1 rest d h

theorem visitBlockItem_tags (a : StaticAnalyzer) (b : BlockItem) :
    ∀ d ∈ (visitBlockItem a b).2, d.rule ≠ .functionSize := by
  cases b with
  | declaration dd span =>
    intro d hd
    exact isCallRule_ne_functionSize (visitDeclaration_tags a dd span d hd)
  | statement s span => exact visitStatement_tags a s span

end

theorem visitDeclaration_gate_fixed (a : StaticAnalyzer) (d : Declaration)
    (span : Span) :
    (if a.rule_set.check_return_value then add_function_to_symbol_table a d span
      else (a, [])).1.rule_set = a.rule_set := by
  cases hrv : a.rule_set.check_return_value
  · rw [if_neg (by simp)]
  · rw [if_pos rfl]
    exact (add_function_to_symbol_table_fixed a d span).1

mutual

theorem visitExpression_disabled (a : StaticAnalyzer) (e : Expression) (r : Rule)
    (h : ruleEnabled a.rule_set r = false) :
    diagsFor r (visitExpression a e).2 = [] := by
  cases e with
  | identifier n => rfl
  | constant v => rfl
  | call c span => exact visitCallExpression_disabled a c span r h
  | cast c span => exact visitCastExpression_disabled a c span r h
  | binaryOperator b => exact visitBinaryOperatorExpression_disabled a b r h

theorem visitBinaryOperatorExpression_disabled (a : StaticAnalyzer)
    (b : BinaryOperatorExpression) (r : Rule)
    (h : ruleEnabled a.rule_set r = false) :
    diagsFor r (visitBinaryOperatorExpression a b).2 = [] := by
  cases b with
  | mk op lhs rhs =>
    have h1 := visitExpression_disabled a lhs r h
    have h2 := visitExpression_disabled (visitExpression a lhs).1 rhs r
      (by rw [(visitExpression_fixed a lhs).1]; exact h)
    simp only [visitBinaryOperatorExpression, diagsFor_append, h1, h2,
      List.append_nil]

theorem visitCallExpression_disabled (a : StaticAnalyzer) (c : CallExpression)
    (span : Span) (r : Rule) (h : ruleEnabled a.rule_set r = false) :
    diagsFor r (visitCallExpression a c span).2 = [] := by
  cases c with
  | mk callee arguments =>
    have hg1 := diagsFor_gated (r := r) (b := a.rule_set.restrict_recursion)
      (check_recursion_tags a ⟨callee, arguments⟩ span)
      (fun hrt => by subst hrt; exact h)
    have hg2 := diagsFor_gated (r := r) (b := a.rule_set.restrict_setjmp)
      (check_setjmp_tags a ⟨callee, arguments⟩ span)
      (fun hrt => by subst hrt; exact h)
    have hg3 := diagsFor_gated (r := r) (b := a.rule_set.restrict_longjmp)
      (check_longjmp_tags a ⟨callee, arguments⟩ span)
      (fun hrt => by subst hrt; exact h)
    have hg4 := diagsFor_gated (r := r) (b := a.rule_set.restrict_heap_allocation)
      (check_heap_usage_tags a ⟨callee, arguments⟩ span)
      (fun hrt => by subst hrt; exact h)
    have hg5 := diagsFor_gated (r := r) (b := a.rule_set.check_return_value)
      (check_return_value_tags a ⟨callee, arguments⟩ span)
      (fun hrt => by subst hrt; exact h)
    have h6 := visitExpression_disabled a callee r h
    have h7 := visitExpressionList_disabled (visitExpression a callee).1
      arguments r (by rw [(visitExpression_fixed a callee).1]; exact h)
    simp only [visitCallExpression, diagsFor_append, hg1, hg2, hg3, hg4, hg5,
      h6, h7, List.append_nil]

theorem visitCastExpression_disabled (a : StaticAnalyzer) (c : CastExpression)
    (span : Span) (r : Rule) (h : ruleEnabled a.rule_set r = false) :
    diagsFor r (visitCastExpression a c span).2 = [] := by
  cases c with
  | mk type_name operand =>
    cases hs : type_name.specifiers with
    | nil => simp [visitCastExpression, hs, diagsFor]
    | cons specifier rest =>
      cases specifier with
      | typeSpecifier t =>
        have h1 := visitExpression_disabled
          { a with current_function_type_cast := some t } operand r h
        simp only [visitCastExpression, hs]
        exact h1
      | typeQualifier =>
        have h1 := visitExpression_disabled a operand r h
        simp only [visitCastExpression, hs]
        exact h1

theorem visitExpressionList_disabled (a : StaticAnalyzer) (es : ExpressionList)
    (r : Rule) (h : ruleEnabled a.rule_set r = false) :
    diagsFor r (visitExpressionList a es).2 = [] := by
  cases es with
  | nil => rfl
  | cons e rest =>
    have h1 := visitExpression_disabled a e r h
    have h2 := visitExpressionList_disabled (visitExpression a e).1 rest r
      (by rw [(visitExpression_fixed a e).1]; exact h)
    simp only [visitExpressionList, diagsFor_append, h1, h2, List.append_nil]

theorem visitDeclaration_disabled (a : StaticAnalyzer) (d : Declaration)
    (span : Span) (r : Rule) (h : ruleEnabled a.rule_set r = false) :
    diagsFor r (visitDeclaration a d span).2 = [] := by
  have h0 : diagsFor r (if a.rule_set.check_return_value then
      add_function_to_symbol_table a d span else (a, [])).2 = [] := by
    cases hrv : a.rule_set.check_return_value
    · rw [if_neg (by simp)]
      rfl
    · rw [if_pos rfl, add_function_to_symbol_table_diags]
      rfl
  have h1 := visitDeclarationChildren_disabled
    (if a.rule_set.check_return_value then
      add_function_to_symbol_table a d span else (a, [])).1 d r
    (by rw [visitDeclaration_gate_fixed]; exact h)
  simp only [visitDeclaration, diagsFor_append, h0, h1, List.append_nil]

theorem visitDeclarationChildren_disabled (a : StaticAnalyzer) (d : Declaration)
    (r : Rule) (h : ruleEnabled a.rule_set r = false) :
    diagsFor r (visitDeclarationChildren a d).2 = [] := by
  cases d with
  | mk specifiers declarators =>
    exact visitInitDeclaratorList_disabled a declarators r h

theorem visitInitDeclaratorList_disabled (a : StaticAnalyzer)
    (ds : InitDeclaratorList) (r : Rule) (h : ruleEnabled a.rule_set r = false) :
    diagsFor r (visitInitDeclaratorList a ds).2 = [] := by
  cases ds with
  | nil => rfl
  | cons d rest =>
    have h1 := visitInitDeclarator_disabled a d r h
    have h2 := visitInitDeclaratorList_disabled (visitInitDeclarator a d).1
      rest r (by rw [(visitInitDeclarator_fixed a d).1]; exact h)
    simp only [visitInitDeclaratorList, diagsFor_append, h1, h2, List.append_nil]

theorem visitInitDeclarator_disabled (a : StaticAnalyzer) (d : InitDeclarator)
    (r : Rule) (h : ruleEnabled a.rule_set r = false) :
    diagsFor r (visitInitDeclarator a d).2 = [] := by
  cases d with
  | mk declarator initializer =>
    cases initializer with
    | noneI => rfl
    | someI i =>
      cases i with
      | expression e => exact visitExpression_disabled a e r h

theorem visitStatement_disabled (a : StaticAnalyzer) (s : Statement)
    (span : Span) (r : Rule) (h : ruleEnabled a.rule_set r = false) :
    diagsFor r (visitStatement a s span).2 = [] := by
  have h0 : ∀ s' : Statement, diagsFor r
      (if a.rule_set.restrict_goto then check_goto a s' span else []) = [] :=
    fun s' => diagsFor_gated (b := a.rule_set.restrict_goto)
      (check_goto_tags a s' span) (fun hrt => by subst hrt; exact h)
  cases s with
  | compound items =>
    have h1 := visitBlockItemList_disabled a items r h
    simp only [visitStatement, diagsFor_append, h0, h1, List.append_nil]
  | expressionStmt oe =>
    cases oe with
    | noneE => simp only [visitStatement, diagsFor_append, h0, List.append_nil]
    | someE e =>
      have h1 := visitExpression_disabled a e r h
      simp only [visitStatement, diagsFor_append, h0, h1, List.append_nil]
  | goto label =>
    simp only [visitStatement, diagsFor_append, h0, List.append_nil]
  | whileStmt w wspan =>
    have h1 := visitWhileStatement_disabled a w wspan r h
    simp only [visitStatement, diagsFor_append, h0, h1, List.append_nil]

theorem visitWhileStatement_disabled (a : StaticAnalyzer) (w : WhileStatement)
    (span : Span) (r : Rule) (h : ruleEnabled a.rule_set r = false) :
    diagsFor r (visitWhileStatement a w span).2 = [] := by
  cases w with
  | mk condition body bodySpan =>
    have h0 := diagsFor_gated (r := r) (b := a.rule_set.fixed_loop_bounds)
      (check_while_loop_bounds_tags a ⟨condition, body, bodySpan⟩ span)
      (fun hrt => by subst hrt; exact h)
    have h1 := visitExpression_disabled a condition r h
    have h2 := visitStatement_disabled (visitExpression a condition).1 body
      bodySpan r (by rw [(visitExpression_fixed a condition).1]; exact h)
    simp only [visitWhileStatement, diagsFor_append, h0, h1, h2, List.append_nil]

theorem visitBlockItemList_disabled (a : StaticAnalyzer) (bs : BlockItemList)
    (r : Rule) (h : ruleEnabled a.rule_set r = false) :
    diagsFor r (visitBlockItemList a bs).2 = [] := by
  cases bs with
  | nil => rfl
  | cons b rest =>
    have h1 := visitBlockItem_disabled a b r h
    have h2 := visitBlockItemList_disabled (visitBlockItem a b).1 rest r
      (by rw [(visitBlockItem_fixed a b).1]; exact h)
    simp only [visitBlockItemList, diagsFor_append, h1, h2, List.append_nil]

theorem visitBlockItem_disabled (a : StaticAnalyzer) (b : BlockItem) (r : Rule)
    (h : ruleEnabled a.rule_set r = false) :
    diagsFor r (visitBlockItem a b).2 = [] := by
  cases b with
  | declaration d span => exact visitDeclaration_disabled a d span r h
  | statement s span => exact visitStatement_disabled a s span r h

end

theorem visitDeclarationList_fixed (a : StaticAnalyzer)
    (ds : List (Declaration × Span)) :
    (visitDeclarationList a ds).1.rule_set = a.rule_set ∧
      (visitDeclarationList a ds).1.source = a.source := by
  induction ds generalizing a with
  | nil => exact ⟨rfl, rfl⟩
  | cons p rest ih =>
    obtain ⟨d, span⟩ := p
    have h1 := visitDeclaration_fixed a d span
    have h2 := ih (visitDeclaration a d span).1
    exact ⟨h2.1.trans h1.1, h2.2.trans h1.2⟩

theorem visitDeclarationList_disabled (a : StaticAnalyzer)
    (ds : List (Declaration × Span)) (r : Rule)
    (h : ruleEnabled a.rule_set r = false) :
    diagsFor r (visitDeclarationList a ds).2 = [] := by
  induction ds generalizing a with
  | nil => rfl
  | cons p rest ih =>
    obtain ⟨d, span⟩ := p
    have h1 := visitDeclaration_disabled a d span r h
    have h2 := ih (visitDeclaration a d span).1
      (by rw [(visitDeclaration_fixed a d span).1]; exact h)
    simp only [visitDeclarationList, diagsFor_append, h1, h2, List.append_nil]

theorem visitDeclarationList_tags (a : StaticAnalyzer)
    (ds : List (Declaration × Span)) :
    ∀ x ∈ (visitDeclarationList a ds).2, isCallRule x.rule = true := by
  induction ds generalizing a with
  | nil => intro x hx; simp [visitDeclarationList] at hx
  | cons p rest ih =>
    obtain ⟨d, span⟩ := p
    intro x hx
    rcases List.mem_append.mp hx with hmem | hmem
    · exact visitDeclaration_tags a d span x hmem
    · exact ih (visitDeclaration a d span).1 x hmem

theorem register_function_definition_state (a : StaticAnalyzer)
    (f : FunctionDefinition) :
    (register_function_definition a f).rule_set = a.rule_set ∧
      (register_function_definition a f).source = a.source ∧
      (register_function_definition a f).current_function_type_cast =
        a.current_function_type_cast ∧
      (register_function_definition a f).current_function =
        a.current_function := by
  unfold register_function_definition
  split
  · exact ⟨rfl, rfl, rfl, rfl⟩
  · exact ⟨rfl, rfl, rfl, rfl⟩

theorem set_current_function_state (a : StaticAnalyzer)
    (f : FunctionDefinition) :
    (set_current_function a f).rule_set = a.rule_set ∧
      (set_current_function a f).source = a.source ∧
      (set_current_function a f).symbol_table = a.symbol_table ∧
      (set_current_function a f).current_function_type_cast =
        a.current_function_type_cast := by
  unfold set_current_function
  split
  · exact ⟨rfl, rfl, rfl, rfl⟩
  · exact ⟨rfl, rfl, rfl, rfl⟩

theorem visit_function_definition_state_fixed (a : StaticAnalyzer)
    (f : FunctionDefinition) :
    (visit_function_definition_state a f).rule_set = a.rule_set ∧
      (visit_function_definition_state a f).source = a.source := by
  unfold visit_function_definition_state
  cases hrec : (register_function_definition a f).rule_set.restrict_recursion
  · rw [if_neg (by simp [hrec])]
    exact ⟨(register_function_definition_state a f).1,
      (register_function_definition_state a f).2.1⟩
  · rw [if_pos hrec]
    refine ⟨(set_current_function_state _ f).1.trans
      (register_function_definition_state a f).1, ?_⟩
    exact (set_current_function_state _ f).2.1.trans
      (register_function_definition_state a f).2.1

theorem function_size_diags_tags (a : StaticAnalyzer) (span : Span) :
    ∀ d ∈ function_size_diags a span, d.rule = .functionSize := by
  unfold function_size_diags
  split
  · dsimp only
    split
    all_goals simp
  · simp

theorem function_size_diags_disabled (a : StaticAnalyzer) (span : Span)
    (r : Rule) (h : ruleEnabled a.rule_set r = false) :
    diagsFor r (function_size_diags a span) = [] := by
  unfold function_size_diags
  by_cases hr : r = Rule.functionSize
  · subst hr
    rw [if_neg (by simp [show a.rule_set.restrict_function_size = false from h])]
    rfl
  · cases hfs : a.rule_set.restrict_function_size
    · rw [if_neg (by simp)]
      rfl
    · rw [if_pos rfl]
      refine diagsFor_eq_nil (fun d hd => ?_)
      have : d.rule = Rule.functionSize := by
        revert hd
        dsimp only
        split
        · intro hd2
          simp only [List.mem_singleton] at hd2
          subst hd2
          rfl
        · intro hd2
          simp at hd2
      rw [this]
      exact fun he => hr he.symm

theorem visitFunctionDefinition_fixed (a : StaticAnalyzer)
    (f : FunctionDefinition) (span : Span) :
    (visitFunctionDefinition a f span).1.rule_set = a.rule_set ∧
      (visitFunctionDefinition a f span).1.source = a.source := by
  have h0 := visit_function_definition_state_fixed a f
  have h1 := visitDeclarationList_fixed (visit_function_definition_state a f)
    f.declarations
  have h2 := visitStatement_fixed
    (visitDeclarationList (visit_function_definition_state a f) f.declarations).1
    f.statement f.statementSpan
  exact ⟨(h2.1.trans h1.1).trans h0.1, (h2.2.trans h1.2).trans h0.2⟩

theorem visitFunctionDefinition_disabled (a : StaticAnalyzer)
    (f : FunctionDefinition) (span : Span) (r : Rule)
    (h : ruleEnabled a.rule_set r = false) :
    diagsFor r (visitFunctionDefinition a f span).2 = [] := by
  have h0 := function_size_diags_disabled (visit_function_definition_state a f)
    span r (by rw [(visit_function_definition_state_fixed a f).1]; exact h)
  have h1 := visitDeclarationList_disabled (visit_function_definition_state a f)
    f.declarations r (by rw [(visit_function_definition_state_fixed a f).1]; exact h)
  have h2 := visitStatement_disabled
    (visitDeclarationList (visit_function_definition_state a f) f.declarations).1
    f.statement f.statementSpan r
    (by rw [(visitDeclarationList_fixed (visit_function_definition_state a f)
        f.declarations).1, (visit_function_definition_state_fixed a f).1]
        exact h)
  simp only [visitFunctionDefinition, diagsFor_append, h0, h1, h2,
    List.append_nil]

theorem visitExternalDeclaration_fixed (a : StaticAnalyzer)
    (e : ExternalDeclaration) :
    (visitExternalDeclaration a e).1.rule_set = a.rule_set ∧
      (visitExternalDeclaration a e).1.source = a.source := by
  cases e with
  | declaration d span => exact visitDeclaration_fixed a d span
  | functionDefinition f span => exact visitFunctionDefinition_fixed a f span

theorem visitExternalDeclaration_disabled (a : StaticAnalyzer)
    (e : ExternalDeclaration) (r : Rule)
    (h : ruleEnabled a.rule_set r = false) :
    diagsFor r (visitExternalDeclaration a e).2 = [] := by
  cases e with
  | declaration d span => exact visitDeclaration_disabled a d span r h
  | functionDefinition f span =>
    exact visitFunctionDefinition_disabled a f span r h

theorem visitTranslationUnit_fixed (a : StaticAnalyzer) (tu : TranslationUnit) :
    (visitTranslationUnit a tu).1.rule_set = a.rule_set ∧
      (visitTranslationUnit a tu).1.source = a.source := by
  induction tu generalizing a with
  | nil => exact ⟨rfl, rfl⟩
  | cons e rest ih =>
    have h1 := visitExternalDeclaration_fixed a e
    have h2 := ih (visitExternalDeclaration a e).1
    exact ⟨h2.1.trans h1.1, h2.2.trans h1.2⟩

theorem visitTranslationUnit_disabled (a : StaticAnalyzer)
    (tu : TranslationUnit) (r : Rule) (h : ruleEnabled a.rule_set r = false) :
    diagsFor r (visitTranslationUnit a tu).2 = [] := by
  induction tu generalizing a with
  | nil => rfl
  | cons e rest ih =>
    have h1 := visitExternalDeclaration_disabled a e r h
    have h2 := ih (visitExternalDeclaration a e).1
      (by rw [(visitExternalDeclaration_fixed a e).1]; exact h)
    simp only [visitTranslationUnit, diagsFor_append, h1, h2, List.append_nil]

/-- A rule whose configuration toggle is off contributes no diagnostics to
any run. -/
theorem analyze_disabled (rs : RuleSet) (source : String)
    (tu : TranslationUnit) (r : Rule) (h : ruleEnabled rs r = false) :
    diagsFor r (analyze rs source tu) = [] :=
  visitTranslationUnit_disabled (StaticAnalyzer.new rs source) tu r h

mutual

/-- Number of goto statements in a statement subtree. -/
def gotoCountStmt : Statement → Nat
  | .compound items => gotoCountBlockItemList items
  | .expressionStmt _ => 0
  | .goto _ => 1
  | .whileStmt w _ => gotoCountWhile w

/-- Number of goto statements in a while statement. -/
def gotoCountWhile : WhileStatement → Nat
  | .mk _ body _ => gotoCountStmt body

/-- Number of goto statements in a block-item list. -/
def gotoCountBlockItemList : BlockItemList → Nat
  | .nil => 0
  | .cons b rest => gotoCountBlockItem b + gotoCountBlockItemList rest

/-- Number of goto statements in a block item. -/
def gotoCountBlockItem : BlockItem → Nat
  | .declaration _ _ => 0
  | .statement s _ => gotoCountStmt s

end

/-- Number of goto statements in a translation unit. -/
def gotoCountTU : TranslationUnit → Nat
  | [] => 0
  | .declaration _ _ :: rest => gotoCountTU rest
  | .functionDefinition f _ :: rest =>
    gotoCountStmt f.statement + gotoCountTU rest

theorem visitExpression_no_goto (a : StaticAnalyzer) (e : Expression) :
    diagsFor Rule.gotoRule (visitExpression a e).2 = [] :=
  diagsFor_eq_nil (fun d hd => isCallRule_ne_goto (visitExpression_tags a e d hd))

theorem visitDeclaration_no_goto (a : StaticAnalyzer) (d : Declaration)
    (span : Span) : diagsFor Rule.gotoRule (visitDeclaration a d span).2 = [] :=
  diagsFor_eq_nil
    (fun x hx => isCallRule_ne_goto (visitDeclaration_tags a d span x hx))

theorem visitDeclarationList_no_goto (a : StaticAnalyzer)
    (ds : List (Declaration × Span)) :
    diagsFor Rule.gotoRule (visitDeclarationList a ds).2 = [] :=
  diagsFor_eq_nil
    (fun x hx => isCallRule_ne_goto (visitDeclarationList_tags a ds x hx))

mutual

theorem visitStatement_gotoCount (a : StaticAnalyzer) (s : Statement)
    (span : Span) (h : a.rule_set.restrict_goto = true) :
    (diagsFor Rule.gotoRule (visitStatement a s span).2).length =
      gotoCountStmt s := by
  cases s with
  | compound items =>
    have h1 := visitBlockItemList_gotoCount a items h
    simp only [visitStatement, if_pos h, diagsFor_append, List.length_append,
      h1, check_goto, gotoCountStmt]
    simp [diagsFor]
  | expressionStmt oe =>
    cases oe with
    | noneE =>
      simp only [visitStatement, if_pos h, diagsFor_append, List.length_append,
        check_goto, gotoCountStmt]
      simp [diagsFor]
    | someE e =>
      have h1 := visitExpression_no_goto a e
      simp only [visitStatement, if_pos h, diagsFor_append, List.length_append,
        h1, check_goto, gotoCountStmt]
      simp [diagsFor]
  | goto label =>
    simp only [visitStatement, if_pos h, diagsFor_append, List.length_append,
      check_goto, gotoCountStmt]
    simp [diagsFor]
  | whileStmt w wspan =>
    have h1 := visitWhileStatement_gotoCount a w wspan h
    simp only [visitStatement, if_pos h, diagsFor_append, List.length_append,
      h1, check_goto, gotoCountStmt]
    simp [diagsFor]

theorem visitWhileStatement_gotoCount (a : StaticAnalyzer) (w : WhileStatement)
    (span : Span) (h : a.rule_set.restrict_goto = true) :
    (diagsFor Rule.gotoRule (visitWhileStatement a w span).2).length =
      gotoCountWhile w := by
  cases w with
  | mk condition body bodySpan =>
    have h0 : diagsFor Rule.gotoRule (if a.rule_set.fixed_loop_bounds then
        check_while_loop_bounds a ⟨condition, body, bodySpan⟩ span else []) = [] :=
      diagsFor_gated (check_while_loop_bounds_tags a ⟨condition, body, bodySpan⟩ span)
        (fun hrt => absurd hrt (by decide))
    have h1 := visitExpression_no_goto a condition
    have h2 := visitStatement_gotoCount (visitExpression a condition).1 body
      bodySpan (by rw [(visitExpression_fixed a condition).1]; exact h)
    simp only [visitWhileStatement, diagsFor_append, List.length_append, h0,
      h1, h2, gotoCountWhile]
    simp [diagsFor]

theorem visitBlockItemList_gotoCount (a : StaticAnalyzer) (bs : BlockItemList)
    (h : a.rule_set.restrict_goto = true) :
    (diagsFor Rule.gotoRule (visitBlockItemList a bs).2).length =
      gotoCountBlockItemList bs := by
  cases bs with
  | nil => simp [visitBlockItemList, gotoCountBlockItemList, diagsFor]
  | cons b rest =>
    have h1 := visitBlockItem_gotoCount a b h
    have h2 := visitBlockItemList_gotoCount (visitBlockItem a b).1 rest
      (by rw [(visitBlockItem_fixed a b).1]; exact h)
    simp only [visitBlockItemList, diagsFor_append, List.length_append, h1, h2,
      gotoCountBlockItemList]

theorem visitBlockItem_gotoCount (a : StaticAnalyzer) (b : BlockItem)
    (h : a.rule_set.restrict_goto = true) :
    (diagsFor Rule.gotoRule (visitBlockItem a b).2).length =
      gotoCountBlockItem b := by
  cases b with
  | declaration d span =>
    simp only [visitBlockItem, visitDeclaration_no_goto, gotoCountBlockItem]
    simp [diagsFor]
  | statement s span => exact visitStatement_gotoCount a s span h

end

theorem visitFunctionDefinition_gotoCount (a : StaticAnalyzer)
    (f : FunctionDefinition) (span : Span)
    (h : a.rule_set.restrict_goto = true) :
    (diagsFor Rule.gotoRule (visitFunctionDefinition a f span).2).length =
      gotoCountStmt f.statement := by
  have h0 : diagsFor Rule.gotoRule
      (function_size_diags (visit_function_definition_state a f) span) = [] :=
    diagsFor_eq_nil (fun d hd => by
      rw [function_size_diags_tags _ _ d hd]
      decide)
  have h1 := visitDeclarationList_no_goto (visit_function_definition_state a f)
    f.declarations
  have h2 := visitStatement_gotoCount
    (visitDeclarationList (visit_function_definition_state a f) f.declarations).1
    f.statement f.statementSpan
    (by rw [(visitDeclarationList_fixed (visit_function_definition_state a f)
        f.declarations).1, (visit_function_definition_state_fixed a f).1]
        exact h)
  simp only [visitFunctionDefinition, diagsFor_append, List.length_append, h0,
    h1, h2]
  simp [diagsFor]

theorem visitTranslationUnit_gotoCount (a : StaticAnalyzer)
    (tu : TranslationUnit) (h : a.rule_set.restrict_goto = true) :
    (diagsFor Rule.gotoRule (visitTranslationUnit a tu).2).length =
      gotoCountTU tu := by
  induction tu generalizing a with
  | nil => rfl
  | cons e rest ih =>
    have h2 := ih (visitExternalDeclaration a e).1
      (by rw [(visitExternalDeclaration_fixed a e).1]; exact h)
    cases e with
    | declaration d span =>
      have h1 := visitDeclaration_no_goto a d span
      simp only [visitTranslationUnit, visitExternalDeclaration, diagsFor_append,
        List.length_append, h1, List.length_nil, Nat.zero_add, gotoCountTU]
      exact h2
    | functionDefinition f span =>
      have h1 := visitFunctionDefinition_gotoCount a f span h
      simp only [visitTranslationUnit, visitExternalDeclaration, diagsFor_append,
        List.length_append, h1, gotoCountTU]
      exact congrArg (fun n => gotoCountStmt f.statement + n) h2

/-! ## Rule configurations and test fixtures -/

/-- Configuration with every rule enabled. -/
def allRules : RuleSet := ⟨true, true, true, true, true, true, true, true⟩

/-- Configuration enabling only the goto rule. -/
def onlyGoto : RuleSet := ⟨true, false, false, false, false, false, false, false⟩

/-- Configuration enabling only the setjmp rule. -/
def onlySetjmp : RuleSet := ⟨false, true, false, false, false, false, false, false⟩

/-- Configuration enabling only the longjmp rule. -/
def onlyLongjmp : RuleSet := ⟨false, false, true, false, false, false, false, false⟩

/-- Configuration enabling only the recursion rule. -/
def onlyRecursion : RuleSet := ⟨false, false, false, true, false, false, false, false⟩

/-- Configuration enabling only the loop-bounds rule. -/
def onlyLoopBounds : RuleSet := ⟨false, false, false, false, true, false, false, false⟩

/-- Configuration enabling only the heap-allocation rule. -/
def onlyHeap : RuleSet := ⟨false, false, false, false, false, true, false, false⟩

/-- Configuration enabling only the function-size rule. -/
def onlyFunctionSize : RuleSet := ⟨false, false, false, false, false, false, true, false⟩

/-- Configuration enabling only the return-value rule. -/
def onlyReturnValue : RuleSet := ⟨false, false, false, false, false, false, false, true⟩

/-- Fixture: the K&R prototype declaration `rt fn();`. -/
def protoDecl (fn : String) (rt : TypeSpecifier) : Declaration :=
  .mk [.typeSpecifier rt] (.cons ⟨⟨.identifier fn, [.krFunction []]⟩, .noneI⟩ .nil)

/-- Fixture: the function definition `void name() { <s>; }`, where the single
body statement's node span is `sspan`. -/
def oneStmtFDef (name : String) (s : Statement) (sspan : Span) :
    FunctionDefinition :=
  ⟨[.typeSpecifier .void], ⟨.identifier name, [.krFunction []]⟩, [],
    .compound (.cons (.statement s sspan) .nil), ⟨0, 1⟩⟩

/-- Fixture: the function definition `void caller() { callee(); }`. -/
def callFDef (caller callee : String) (cspan : Span) : FunctionDefinition :=
  oneStmtFDef caller
    (.expressionStmt (.someE (.call ⟨.identifier callee, .nil⟩ cspan))) cspan

/-- Fixture for C4: `void f() { f(); }`. -/
def selfRecTU (f : String) : TranslationUnit :=
  [.functionDefinition (callFDef f f ⟨0, 1⟩) ⟨0, 1⟩]

/-- Fixture for C4: `void f() { g(); } void g() { f(); }`. -/
def mutualRecTU (f g : String) : TranslationUnit :=
  [.functionDefinition (callFDef f g ⟨0, 1⟩) ⟨0, 1⟩,
   .functionDefinition (callFDef g f ⟨0, 1⟩) ⟨0, 1⟩]

/-- Fixture for C2: `rt fn(); void main() { fn(); }` (the call used bare as a
statement). -/
def bareCallTU (fn : String) (rt : TypeSpecifier) : TranslationUnit :=
  [.declaration (protoDecl fn rt) ⟨0, 1⟩,
   .functionDefinition (callFDef "main" fn ⟨0, 1⟩) ⟨0, 1⟩]

/-- Fixture for C2: `rt fn(); void main() { (t)fn(); }` (the same call wrapped
directly in a cast to `t`). -/
def castCallTU (fn : String) (rt t : TypeSpecifier) : TranslationUnit :=
  [.declaration (protoDecl fn rt) ⟨0, 1⟩,
   .functionDefinition (oneStmtFDef "main" (.expressionStmt (.someE
     (.cast ⟨⟨[.typeSpecifier t]⟩, .call ⟨.identifier fn, .nil⟩ ⟨0, 1⟩⟩
       ⟨0, 1⟩))) ⟨0, 1⟩) ⟨0, 1⟩]

/-- Fixture for C1: `int x = (int)((char)a + f());` — the call `f()` has the
outer `(int)` cast in its lexical ancestry, and the inner `(char)` cast is
entered and exited (on the left operand) before the call is visited. -/
def nestedCastDecl : Declaration :=
  .mk [.typeSpecifier .int]
    (.cons ⟨⟨.identifier "x", []⟩, .someI (.expression
      (.cast ⟨⟨[.typeSpecifier .int]⟩,
        .binaryOperator ⟨.plus,
          .cast ⟨⟨[.typeSpecifier .char]⟩, .identifier "a"⟩ ⟨0, 1⟩,
          .call ⟨.identifier "f", .nil⟩ ⟨0, 1⟩⟩⟩ ⟨0, 1⟩))⟩ .nil)

/-- Fixture for C1: `int f();` followed by `int x = (int)((char)a + f());`. -/
def nestedCastTU : TranslationUnit :=
  [.declaration (protoDecl "f" .int) ⟨0, 1⟩,
   .declaration nestedCastDecl ⟨0, 1⟩]

/-- Fixture for C7: a `malloc()` call wrapped in a cast expression whose type
name has an empty specifier list. -/
def emptyCastTU : TranslationUnit :=
  [.functionDefinition (oneStmtFDef "m" (.expressionStmt (.someE
    (.cast ⟨⟨[]⟩, .call ⟨.identifier "malloc", .nil⟩ ⟨0, 1⟩⟩ ⟨0, 1⟩)))
    ⟨0, 1⟩) ⟨0, 1⟩]

/-- Fixture for C7: the same `malloc()` call wrapped in a cast with a
nonempty specifier list. -/
def nonEmptyCastTU : TranslationUnit :=
  [.functionDefinition (oneStmtFDef "m" (.expressionStmt (.someE
    (.cast ⟨⟨[.typeSpecifier .int]⟩, .call ⟨.identifier "malloc", .nil⟩
      ⟨0, 1⟩⟩ ⟨0, 1⟩))) ⟨0, 1⟩) ⟨0, 1⟩]

/-- Two-line source for the C8 snippets; byte span `⟨3, 4⟩` is on line 2. -/
def snippetSrc : String := "ab\ncd"

/-- C8 snippet: `void m() { goto l; }` with the goto on line 2. -/
def gotoSnipTU : TranslationUnit :=
  [.functionDefinition (oneStmtFDef "m" (.goto "l") ⟨3, 4⟩) ⟨0, 1⟩]

/-- C8 snippet: a bare `setjmp()` call on line 2. -/
def setjmpSnipTU : TranslationUnit :=
  [.functionDefinition (callFDef "m" "setjmp" ⟨3, 4⟩) ⟨0, 1⟩]

/-- C8 snippet: a bare `longjmp()` call on line 2. -/
def longjmpSnipTU : TranslationUnit :=
  [.functionDefinition (callFDef "m" "longjmp" ⟨3, 4⟩) ⟨0, 1⟩]

/-- C8 snippet: `void m() { m(); }` with the self-call on line 2. -/
def recursionSnipTU : TranslationUnit :=
  [.functionDefinition (callFDef "m" "m" ⟨3, 4⟩) ⟨0, 1⟩]

/-- C8 snippet: `while (1) { }` on line 2. -/
def loopSnipTU : TranslationUnit :=
  [.functionDefinition (oneStmtFDef "m"
    (.whileStmt ⟨.constant "1", .compound .nil, ⟨0, 1⟩⟩ ⟨3, 4⟩) ⟨3, 4⟩) ⟨0, 1⟩]

/-- C8 snippet: a bare `malloc()` call on line 2. -/
def heapSnipTU : TranslationUnit :=
  [.functionDefinition (callFDef "m" "malloc" ⟨3, 4⟩) ⟨0, 1⟩]

/-- Source of 61 newline characters: offset 0 is line 1, offset 61 line 62. -/
def src61 : String := String.mk (List.replicate 61 (Char.ofNat 10))

/-- C8 snippet: a function definition spanning 62 lines. -/
def sizeSnipTU : TranslationUnit :=
  [.functionDefinition ⟨[.typeSpecifier .void],
    ⟨.identifier "m", [.krFunction []]⟩, [], .compound .nil, ⟨0, 1⟩⟩ ⟨0, 61⟩]

/-- C8 snippet: `int f();` and a bare unhandled call `f()` on line 2. -/
def returnValueSnipTU : TranslationUnit :=
  [.declaration (protoDecl "f" .int) ⟨0, 1⟩,
   .functionDefinition (callFDef "m" "f" ⟨3, 4⟩) ⟨0, 1⟩]

/-- Whether a binary operator is one of the five relational comparisons the
loop-bounds rule recognises. -/
def isRelational : BinaryOperator → Bool
  | .less | .lessOrEqual | .greater | .greaterOrEqual | .equals => true
  | _ => false

/-- `check_while_loop_bounds` in closed form: silent exactly when the
condition is a relational comparison with a constant on at least one side. -/
theorem check_while_loop_bounds_eq (a : StaticAnalyzer) (cond : Expression)
    (body : Statement) (bspan span : Span) :
    check_while_loop_bounds a ⟨cond, body, bspan⟩ span =
      (if (match cond with
           | .binaryOperator ⟨op, lhs, rhs⟩ =>
             isRelational op && (isConstant lhs || isConstant rhs)
           | _ => false)
       then []
       else [⟨.loopBounds,
         [loopBoundsMessage (get_line_number a.source span.start)]⟩]) := by
  unfold check_while_loop_bounds
  cases cond with
  | binaryOperator b =>
    cases b with
    | mk op lhs rhs =>
      cases op
      all_goals dsimp only [isRelational]
      all_goals simp
  | identifier n => rfl
  | constant v => rfl
  | call c sp => rfl
  | cast c sp => rfl

/-! ## Claim theorems -/

/-- C5: symbol-table registration is last-write-wins.  Registering a name
with return type int and then with return type void, then looking it up,
yields a Function symbol with return type void — both at the level of
`SymbolTable.insert`/`get` and through two same-named function definitions
processed by the traversal. -/
theorem C5_symbol_table_last_write_wins :
    (∀ (t : SymbolTable) (name : String),
      ((t.insert name ⟨name, .function .int⟩).insert name
        ⟨name, .function .void⟩).get name = some ⟨name, .function .void⟩) ∧
    (∀ (name src : String) (sp1 sp2 : Span),
      ((visitTranslationUnit (StaticAnalyzer.new allRules src)
        [.functionDefinition ⟨[.typeSpecifier .int],
           ⟨.identifier name, [.krFunction []]⟩, [], .compound .nil, ⟨0, 1⟩⟩ sp1,
         .functionDefinition ⟨[.typeSpecifier .void],
           ⟨.identifier name, [.krFunction []]⟩, [], .compound .nil, ⟨0, 1⟩⟩
           sp2]).1.symbol_table).get name = some ⟨name, .function .void⟩) := by
  constructor
  · intro t name
    simp [SymbolTable.insert, SymbolTable.get, List.find?]
  · intro name src sp1 sp2
    simp [visitTranslationUnit, visitExternalDeclaration,
      visitFunctionDefinition, visit_function_definition_state,
      register_function_definition, set_current_function, function_size_diags,
      visitDeclarationList, visitStatement, visitBlockItemList, check_goto,
      SymbolTable.insert, SymbolTable.get, StaticAnalyzer.new, allRules,
      List.find?]

/-- C10: prototype registration examines only the declaration's first init
declarator: the symbol-table action on `specs d1, d2, ...;` is the same as
on `specs d1;` (later declarators are never registered — concretely,
`int f(), g();` registers `f` and not `g`), and a declaration with no
declarators registers nothing and leaves the analyzer state unchanged. -/
theorem C10_first_declarator_only :
    (∀ (a : StaticAnalyzer) (span : Span) (specs : List DeclarationSpecifier)
       (d1 : InitDeclarator) (rest : InitDeclaratorList),
      add_function_to_symbol_table a (.mk specs (.cons d1 rest)) span =
        add_function_to_symbol_table a (.mk specs (.cons d1 .nil)) span) ∧
    (((visitDeclaration (StaticAnalyzer.new allRules "x")
        (.mk [.typeSpecifier .int]
          (.cons ⟨⟨.identifier "f", [.krFunction []]⟩, .noneI⟩
            (.cons ⟨⟨.identifier "g", [.krFunction []]⟩, .noneI⟩ .nil)))
        ⟨0, 1⟩).1.symbol_table.get "f" = some ⟨"f", .function .int⟩) ∧
      ((visitDeclaration (StaticAnalyzer.new allRules "x")
        (.mk [.typeSpecifier .int]
          (.cons ⟨⟨.identifier "f", [.krFunction []]⟩, .noneI⟩
            (.cons ⟨⟨.identifier "g", [.krFunction []]⟩, .noneI⟩ .nil)))
        ⟨0, 1⟩).1.symbol_table.get "g" = none)) ∧
    (∀ (a : StaticAnalyzer) (span : Span) (specs : List DeclarationSpecifier),
      add_function_to_symbol_table a (.mk specs .nil) span = (a, [])) := by
  refine ⟨fun a span specs d1 rest => rfl, ⟨by decide, by decide⟩,
    fun a span specs => rfl⟩

/-- C6: with the function-size rule enabled, visiting a function definition
emits exactly one size diagnostic — reported at the function's start line —
when the line span `end line - start line + 1` exceeds the fixed threshold
of 60, and none otherwise; in particular a span of exactly 60 lines yields
no diagnostic and a span of 61 or more lines yields exactly one. -/
theorem C6_function_size_threshold (a : StaticAnalyzer)
    (f : FunctionDefinition) (span : Span)
    (h : a.rule_set.restrict_function_size = true) :
    diagsFor .functionSize (visitFunctionDefinition a f span).2 =
      (if get_line_number a.source span.stop -
          get_line_number a.source span.start + 1 > 60
       then [⟨.functionSize,
         [functionSizeMessage (get_line_number a.source span.start)]⟩]
       else []) := by
  have hstate := visit_function_definition_state_fixed a f
  have hds : diagsFor Rule.functionSize
      (visitDeclarationList (visit_function_definition_state a f)
        f.declarations).2 = [] :=
    diagsFor_eq_nil (fun x hx => isCallRule_ne_functionSize
      (visitDeclarationList_tags _ f.declarations x hx))
  have hst : diagsFor Rule.functionSize
      (visitStatement (visitDeclarationList (visit_function_definition_state a f)
        f.declarations).1 f.statement f.statementSpan).2 = [] :=
    diagsFor_eq_nil (visitStatement_tags _ f.statement f.statementSpan)
  simp only [visitFunctionDefinition, diagsFor_append, hds, hst,
    List.append_nil]
  unfold function_size_diags
  rw [if_pos (show (visit_function_definition_state a f).rule_set.restrict_function_size = true by
    rw [hstate.1]; exact h)]
  dsimp only
  rw [hstate.2]
  by_cases hc : get_line_number a.source span.stop -
      get_line_number a.source span.start + 1 > 60
  · rw [if_pos hc]
    simp [diagsFor]
  · rw [if_neg hc]
    rfl

/-- Witness for C6 at a concrete oversized function (62-line span). -/
theorem C6_witness :
    (StaticAnalyzer.new onlyFunctionSize src61).rule_set.restrict_function_size
      = true ∧
    diagsFor .functionSize (visitFunctionDefinition
      (StaticAnalyzer.new onlyFunctionSize src61)
      ⟨[.typeSpecifier .void], ⟨.identifier "m", [.krFunction []]⟩, [],
        .compound .nil, ⟨0, 1⟩⟩ ⟨0, 61⟩).2 =
      (if get_line_number (StaticAnalyzer.new onlyFunctionSize src61).source
          (Span.mk 0 61).stop -
          get_line_number (StaticAnalyzer.new onlyFunctionSize src61).source
          (Span.mk 0 61).start + 1 > 60
       then [⟨.functionSize, [functionSizeMessage (get_line_number
         (StaticAnalyzer.new onlyFunctionSize src61).source
         (Span.mk 0 61).start)]⟩]
       else []) :=
  ⟨rfl, C6_function_size_threshold (StaticAnalyzer.new onlyFunctionSize src61)
    ⟨[.typeSpecifier .void], ⟨.identifier "m", [.krFunction []]⟩, [],
      .compound .nil, ⟨0, 1⟩⟩ ⟨0, 61⟩ rfl⟩

/-- C3: with the loop-bounds rule enabled, a while statement whose condition
is a relational comparison (`<`, `<=`, `>`, `>=`, `==`) with a constant on at
least one side yields no loop-bounds diagnostic; a while statement whose
condition is a bare constant, or a relational comparison with no constant
operand on either side, yields exactly one loop-bounds diagnostic. -/
theorem C3_loop_bounds (a : StaticAnalyzer) (span bspan : Span)
    (h : a.rule_set.fixed_loop_bounds = true) :
    (∀ (op : BinaryOperator) (lhs rhs : Expression), isRelational op = true →
      (isConstant lhs || isConstant rhs) = true →
      diagsFor .loopBounds (visitWhileStatement a
        ⟨.binaryOperator ⟨op, lhs, rhs⟩, .compound .nil, bspan⟩ span).2 = []) ∧
    (∀ v : String,
      diagsFor .loopBounds (visitWhileStatement a
        ⟨.constant v, .compound .nil, bspan⟩ span).2 =
        [⟨.loopBounds,
          [loopBoundsMessage (get_line_number a.source span.start)]⟩]) ∧
    (∀ (op : BinaryOperator) (lhs rhs : Expression), isRelational op = true →
      isConstant lhs = false → isConstant rhs = false →
      diagsFor .loopBounds (visitWhileStatement a
        ⟨.binaryOperator ⟨op, lhs, rhs⟩, .compound .nil, bspan⟩ span).2 =
        [⟨.loopBounds,
          [loopBoundsMessage (get_line_number a.source span.start)]⟩]) := by
  have hbody : ∀ b : StaticAnalyzer,
      diagsFor Rule.loopBounds (visitStatement b (.compound .nil) bspan).2 = [] :=
    fun b => by simp [visitStatement, visitBlockItemList, check_goto, diagsFor]
  refine ⟨fun op lhs rhs hop hconst => ?_, fun v => ?_,
    fun op lhs rhs hop hl hr => ?_⟩
  · have hchk : check_while_loop_bounds a
        ⟨.binaryOperator ⟨op, lhs, rhs⟩, .compound .nil, bspan⟩ span = [] := by
      rw [check_while_loop_bounds_eq]
      simp [hop, hconst]
    have hcond := diagsFor_eq_nil (fun d hd => isCallRule_ne_loopBounds
      (visitExpression_tags a (.binaryOperator ⟨op, lhs, rhs⟩) d hd))
    simp only [visitWhileStatement, if_pos h, hchk, diagsFor_append, hcond,
      hbody, List.append_nil, List.nil_append]
  · have hchk : check_while_loop_bounds a
        ⟨.constant v, .compound .nil, bspan⟩ span =
        [⟨.loopBounds,
          [loopBoundsMessage (get_line_number a.source span.start)]⟩] := by
      rw [check_while_loop_bounds_eq]
      rfl
    simp only [visitWhileStatement, if_pos h, hchk, diagsFor_append, hbody,
      visitExpression, List.append_nil]
    simp [diagsFor]
  · have hchk : check_while_loop_bounds a
        ⟨.binaryOperator ⟨op, lhs, rhs⟩, .compound .nil, bspan⟩ span =
        [⟨.loopBounds,
          [loopBoundsMessage (get_line_number a.source span.start)]⟩] := by
      rw [check_while_loop_bounds_eq]
      simp [hop, hl, hr]
    have hcond := diagsFor_eq_nil (fun d hd => isCallRule_ne_loopBounds
      (visitExpression_tags a (.binaryOperator ⟨op, lhs, rhs⟩) d hd))
    simp only [visitWhileStatement, if_pos h, hchk, diagsFor_append, hcond,
      hbody, List.append_nil]
    simp [diagsFor]

/-- Witness for C3 at the concrete loop `while (1) { }`. -/
theorem C3_witness :
    (StaticAnalyzer.new allRules "q").rule_set.fixed_loop_bounds = true ∧
    diagsFor .loopBounds (visitWhileStatement (StaticAnalyzer.new allRules "q")
      ⟨.constant "1", .compound .nil, ⟨0, 1⟩⟩ ⟨0, 1⟩).2 =
      [⟨.loopBounds, [loopBoundsMessage (get_line_number
        (StaticAnalyzer.new allRules "q").source (Span.mk 0 1).start)]⟩] :=
  ⟨rfl, (C3_loop_bounds (StaticAnalyzer.new allRules "q") ⟨0, 1⟩ ⟨0, 1⟩
    rfl).2.1 "1"⟩

/-- C4: with the recursion rule enabled, a function `f` whose body contains a
direct call `f()` yields exactly one recursion diagnostic; mutual recursion
(`f` calls `g`, `g` calls `f`, with distinct names and no direct self-call)
yields zero recursion diagnostics; and `check_recursion` can only fire while
the traversal is inside a function body (`current_function` set). -/
theorem C4_recursion :
    (∀ f : String,
      diagsFor .recursionRule (analyze allRules "q" (selfRecTU f)) =
        [⟨.recursionRule, [recursionMessage 1]⟩]) ∧
    (∀ f g : String, f ≠ g →
      diagsFor .recursionRule (analyze allRules "q" (mutualRecTU f g)) = []) ∧
    (∀ (a : StaticAnalyzer) (c : CallExpression) (span : Span),
      a.current_function = none → check_recursion a c span = []) := by
  refine ⟨fun f => ?_, fun f g hfg => ?_, fun a c span hcf => ?_⟩
  · simp [analyze, visitTranslationUnit, visitExternalDeclaration,
      visitFunctionDefinition, visit_function_definition_state,
      register_function_definition, set_current_function, function_size_diags,
      visitDeclarationList, visitStatement, visitBlockItemList, visitBlockItem,
      visitExpression, visitCallExpression, visitExpressionList,
      check_goto, check_recursion, check_setjmp, check_longjmp,
      check_heap_usage, check_return_value, SymbolTable.get, SymbolTable.insert,
      StaticAnalyzer.new, allRules, selfRecTU, callFDef, oneStmtFDef, diagsFor,
      get_line_number, List.find?,
      apply_ite (List.filter (fun d : Diagnostic =>
        decide (d.rule = Rule.recursionRule)))]
  · have hgf := Ne.symm hfg
    simp [analyze, visitTranslationUnit, visitExternalDeclaration,
      visitFunctionDefinition, visit_function_definition_state,
      register_function_definition, set_current_function, function_size_diags,
      visitDeclarationList, visitStatement, visitBlockItemList, visitBlockItem,
      visitExpression, visitCallExpression, visitExpressionList,
      check_goto, check_recursion, check_setjmp, check_longjmp,
      check_heap_usage, check_return_value, SymbolTable.get, SymbolTable.insert,
      StaticAnalyzer.new, allRules, mutualRecTU, callFDef, oneStmtFDef,
      diagsFor, get_line_number, List.find?, hfg, hgf,
      apply_ite (List.filter (fun d : Diagnostic =>
        decide (d.rule = Rule.recursionRule)))]
  · cases c with
    | mk callee arguments =>
      cases callee
      all_goals simp [check_recursion, hcf]

/-- Witness for C4: the mutual-recursion pair at the concrete distinct names
`"f"` and `"g"`. -/
theorem C4_witness :
    ("f" : String) ≠ "g" ∧
    diagsFor .recursionRule (analyze allRules "q" (mutualRecTU "f" "g")) = [] :=
  ⟨by decide, C4_recursion.2.1 "f" "g" (by decide)⟩

/-- C2: with every rule enabled (so in particular the return-value rule), a
call to a previously declared non-void function, used bare as a statement,
yields exactly one return-value diagnostic; the same call wrapped directly
in a cast expression of any target type (including void) yields zero
return-value diagnostics.  (The enclosing function is named `main`; the
callee must be a different name, or its definition would overwrite the
prototype.) -/
theorem C2_return_value_bare_vs_cast (fn : String) (rt t : TypeSpecifier)
    (hrt : rt ≠ .void) (hfn : fn ≠ "main") :
    diagsFor .returnValue (analyze allRules "q" (bareCallTU fn rt)) =
      [⟨.returnValue, [returnValueMessage 1, "q\n^"]⟩] ∧
    diagsFor .returnValue (analyze allRules "q" (castCallTU fn rt t)) = [] := by
  have hnm := Ne.symm hfn
  constructor
  · simp [analyze, visitTranslationUnit, visitExternalDeclaration,
      visitDeclaration, add_function_to_symbol_table, visitDeclarationChildren,
      visitInitDeclaratorList, visitInitDeclarator,
      visitFunctionDefinition, visit_function_definition_state,
      register_function_definition, set_current_function, function_size_diags,
      visitDeclarationList, visitStatement, visitBlockItemList, visitBlockItem,
      visitExpression, visitCallExpression, visitExpressionList,
      check_goto, check_recursion, check_setjmp, check_longjmp,
      check_heap_usage, check_return_value, SymbolTable.get, SymbolTable.insert,
      StaticAnalyzer.new, allRules, bareCallTU, protoDecl, callFDef,
      oneStmtFDef, diagsFor, get_line_number, get_source_code_from_span,
      List.find?, hrt, hfn, hnm,
      apply_ite (List.filter (fun d : Diagnostic =>
        decide (d.rule = Rule.returnValue)))]
  · simp [analyze, visitTranslationUnit, visitExternalDeclaration,
      visitDeclaration, add_function_to_symbol_table, visitDeclarationChildren,
      visitInitDeclaratorList, visitInitDeclarator,
      visitFunctionDefinition, visit_function_definition_state,
      register_function_definition, set_current_function, function_size_diags,
      visitDeclarationList, visitStatement, visitBlockItemList, visitBlockItem,
      visitExpression, visitCallExpression, visitCastExpression,
      visitExpressionList, check_goto, check_recursion, check_setjmp,
      check_longjmp, check_heap_usage, check_return_value, SymbolTable.get,
      SymbolTable.insert, StaticAnalyzer.new, allRules, castCallTU, protoDecl,
      oneStmtFDef, diagsFor, get_line_number, get_source_code_from_span,
      List.find?, hrt, hfn, hnm,
      apply_ite (List.filter (fun d : Diagnostic =>
        decide (d.rule = Rule.returnValue)))]

/-- Witness for C2 at the concrete names and types `int foo();`, cast `(void)`. -/
theorem C2_witness :
    (TypeSpecifier.int ≠ TypeSpecifier.void) ∧ (("foo" : String) ≠ "main") ∧
    diagsFor .returnValue (analyze allRules "q" (bareCallTU "foo" .int)) =
      [⟨.returnValue, [returnValueMessage 1, "q\n^"]⟩] :=
  ⟨by decide, by decide,
    (C2_return_value_bare_vs_cast "foo" .int .void (by decide) (by decide)).1⟩

/-- C1 counterexample: in `int f(); int x = (int)((char)a + f());` the call
`f()` has the outer `(int)` cast in its lexical ancestry, and an inner cast
is entered and exited before the call; the claim predicts no return-value
diagnostic, but the code emits one, because `visit_cast_expression` clears
the active-cast state to `None` when the inner cast's visit ends instead of
restoring the enclosing cast's state. -/
theorem C1_counterexample :
    analyze onlyReturnValue "q" nestedCastTU =
      [⟨.returnValue, [returnValueMessage 1, "q\n^"]⟩] := by decide

/-- C1 (amended): when a cast expression's visit ends, the active-cast state
is unconditionally cleared to `none` — not restored to its prior value —
whenever the cast's type name has a nonempty specifier list (a cast with an
empty specifier list returns immediately, leaving the whole analyzer state
unchanged); consequently a cast in a call's lexical ancestry suppresses the
return-value diagnostic only if no inner cast's visit has ended in
between. -/
theorem C1_amended_cast_state_cleared :
    (∀ (a : StaticAnalyzer) (operand : Expression) (span : Span),
      visitCastExpression a ⟨⟨[]⟩, operand⟩ span = (a, [])) ∧
    (∀ (a : StaticAnalyzer) (tn : TypeName) (operand : Expression) (span : Span),
      tn.specifiers ≠ [] →
      (visitCastExpression a ⟨tn, operand⟩ span).1.current_function_type_cast
        = none) := by
  constructor
  · intro a operand span
    rfl
  · intro a tn operand span hne
    cases hs : tn.specifiers with
    | nil => exact absurd hs hne
    | cons specifier rest =>
      cases specifier with
      | typeSpecifier t => simp [visitCastExpression, hs]
      | typeQualifier => simp [visitCastExpression, hs]

/-- Witness for C1 (amended): a concrete `(int)` cast around a constant,
entered with an active cast state, ends with the state cleared. -/
theorem C1_witness :
    (TypeName.mk [.typeSpecifier .int]).specifiers ≠ [] ∧
    (visitCastExpression
      { StaticAnalyzer.new onlyReturnValue "q" with
          current_function_type_cast := some .char }
      ⟨⟨[.typeSpecifier .int]⟩, .constant "1"⟩
      ⟨0, 1⟩).1.current_function_type_cast = none :=
  ⟨by decide, C1_amended_cast_state_cleared.2
    { StaticAnalyzer.new onlyReturnValue "q" with
        current_function_type_cast := some .char }
    ⟨[.typeSpecifier .int]⟩ (.constant "1") ⟨0, 1⟩ (by decide)⟩

/-- C7 counterexample: a cast expression whose type name has an empty
specifier list returns without visiting its children — the claim predicts
the `malloc()` call under such a cast is still visited (one heap
diagnostic), but the run produces none; the same call under a cast with a
nonempty specifier list is visited and flagged. -/
theorem C7_counterexample :
    analyze onlyHeap "q" emptyCastTU = [] ∧
    analyze onlyHeap "q" nonEmptyCastTU =
      [⟨.heapUsage, [heapMessage 1, "q\n^"]⟩] := by
  constructor
  · decide
  · decide

/-- C7 (amended): no node is visited twice and a rule firing never halts the
traversal — with the goto rule enabled, the number of goto diagnostics of a
run equals exactly the number of goto statements in the translation unit —
but a cast expression whose type name has an empty specifier list returns
immediately without visiting its children (all other entered nodes have all
their children visited). -/
theorem C7_amended_traversal :
    (∀ (a : StaticAnalyzer) (operand : Expression) (span : Span),
      visitCastExpression a ⟨⟨[]⟩, operand⟩ span = (a, [])) ∧
    (∀ (rs : RuleSet) (src : String) (tu : TranslationUnit),
      rs.restrict_goto = true →
      (diagsFor .gotoRule (analyze rs src tu)).length = gotoCountTU tu) := by
  constructor
  · intro a operand span
    rfl
  · intro rs src tu h
    exact visitTranslationUnit_gotoCount (StaticAnalyzer.new rs src) tu h

/-- Witness for C7 (amended): a concrete two-goto unit produces exactly two
goto diagnostics. -/
theorem C7_witness :
    onlyGoto.restrict_goto = true ∧
    (diagsFor .gotoRule (analyze onlyGoto snippetSrc
      [.functionDefinition (oneStmtFDef "m" (.goto "l") ⟨3, 4⟩) ⟨0, 1⟩,
       .functionDefinition (oneStmtFDef "n" (.goto "k") ⟨0, 1⟩) ⟨0, 1⟩])).length
      = gotoCountTU
        [.functionDefinition (oneStmtFDef "m" (.goto "l") ⟨3, 4⟩) ⟨0, 1⟩,
         .functionDefinition (oneStmtFDef "n" (.goto "k") ⟨0, 1⟩) ⟨0, 1⟩] :=
  ⟨rfl, C7_amended_traversal.2 onlyGoto snippetSrc
    [.functionDefinition (oneStmtFDef "m" (.goto "l") ⟨3, 4⟩) ⟨0, 1⟩,
     .functionDefinition (oneStmtFDef "n" (.goto "k") ⟨0, 1⟩) ⟨0, 1⟩] rfl⟩

/-- C8: for every rule, an off toggle yields zero diagnostics of that rule
on every input AST; and with only one rule enabled, each rule's
single-violation snippet yields exactly one diagnostic of that rule at the
correct line (the violations of the two-line snippets sit on line 2; the
oversized function is reported at its start line 1). -/
theorem C8_rule_toggles :
    (∀ (rs : RuleSet) (src : String) (tu : TranslationUnit) (r : Rule),
      ruleEnabled rs r = false → diagsFor r (analyze rs src tu) = []) ∧
    analyze onlyGoto snippetSrc gotoSnipTU =
      [⟨.gotoRule, [gotoMessage 2]⟩] ∧
    analyze onlySetjmp snippetSrc setjmpSnipTU =
      [⟨.setjmpRule, [setjmpMessage 2]⟩] ∧
    analyze onlyLongjmp snippetSrc longjmpSnipTU =
      [⟨.longjmpRule, [longjmpMessage 2]⟩] ∧
    analyze onlyRecursion snippetSrc recursionSnipTU =
      [⟨.recursionRule, [recursionMessage 2]⟩] ∧
    analyze onlyLoopBounds snippetSrc loopSnipTU =
      [⟨.loopBounds, [loopBoundsMessage 2]⟩] ∧
    analyze onlyHeap snippetSrc heapSnipTU =
      [⟨.heapUsage, [heapMessage 2, "c\n^"]⟩] ∧
    analyze onlyFunctionSize src61 sizeSnipTU =
      [⟨.functionSize, [functionSizeMessage 1]⟩] ∧
    analyze onlyReturnValue snippetSrc returnValueSnipTU =
      [⟨.returnValue, [returnValueMessage 2, "c\n^"]⟩] := by
  refine ⟨analyze_disabled, ?_, ?_, ?_, ?_, ?_, ?_, ?_, ?_⟩
  all_goals decide

/-- Witness for C8: the goto snippet, with a configuration that disables the
goto rule, yields zero goto diagnostics. -/
theorem C8_witness :
    ruleEnabled onlyHeap .gotoRule = false ∧
    diagsFor .gotoRule (analyze onlyHeap snippetSrc gotoSnipTU) = [] :=
  ⟨by decide, C8_rule_toggles.1 onlyHeap snippetSrc gotoSnipTU .gotoRule
    (by decide)⟩

/-- C9 counterexample: the loop-bounds rule renders its message with the
line number in the middle of the sentence (`Error: Loop at line <N> does not
have fixed bounds`), so the produced diagnostic does not have the claimed
shape `Error: <description> at line <N>` with the line number at the end. -/
theorem C9_counterexample :
    analyze onlyLoopBounds "x" [.functionDefinition (oneStmtFDef "m"
      (.whileStmt ⟨.constant "1", .compound .nil, ⟨0, 1⟩⟩ ⟨0, 1⟩) ⟨0, 1⟩)
      ⟨0, 1⟩] = [⟨.loopBounds, [loopBoundsMessage 1]⟩] ∧
    ¬ ∃ desc : String,
      loopBoundsMessage 1 = "Error: " ++ desc ++ " at line " ++ toString 1 := by
  constructor
  · decide
  · rintro ⟨desc, hdesc⟩
    have h1 : (loopBoundsMessage 1).data.getLast? = some 's' := by decide
    rw [hdesc] at h1
    rw [show ("Error: " ++ desc ++ " at line " ++ toString 1).data
        = ("Error: ".data ++ desc.data ++ " at line ".data) ++ (toString 1).data by
      simp [String.data_append]] at h1
    rw [List.getLast?_append_of_ne_nil _ (by decide)] at h1
    exact absurd h1 (by decide)

/-- C9 (amended): six of the eight rules (goto, setjmp, longjmp, recursion,
heap, function-size) render as `Error: <description> at line <N>` with the
line number at the end; the loop-bounds and return-value messages embed the
line number mid-sentence; heap and return-value diagnostics additionally
carry a second printed line holding the literal source slice for the span
plus a caret underline of equal width. -/
theorem C9_amended_rendering :
    (∀ n : Nat, ∃ desc : String,
      gotoMessage n = "Error: " ++ desc ++ " at line " ++ toString n) ∧
    (∀ n : Nat, ∃ desc : String,
      setjmpMessage n = "Error: " ++ desc ++ " at line " ++ toString n) ∧
    (∀ n : Nat, ∃ desc : String,
      longjmpMessage n = "Error: " ++ desc ++ " at line " ++ toString n) ∧
    (∀ n : Nat, ∃ desc : String,
      recursionMessage n = "Error: " ++ desc ++ " at line " ++ toString n) ∧
    (∀ n : Nat, ∃ desc : String,
      heapMessage n = "Error: " ++ desc ++ " at line " ++ toString n) ∧
    (∀ n : Nat, ∃ desc : String,
      functionSizeMessage n = "Error: " ++ desc ++ " at line " ++ toString n) ∧
    (∀ n : Nat, loopBoundsMessage n =
      "Error: Loop at line " ++ toString n ++ " does not have fixed bounds") ∧
    (∀ n : Nat, returnValueMessage n =
      "Error: Call to non-void function at line " ++ toString n ++
        " does not handle the return value") ∧
    (∀ (a : StaticAnalyzer) (c : CallExpression) (span : Span),
      ∀ d ∈ check_heap_usage a c span,
        d.lines = [heapMessage (get_line_number a.source span.start),
                   get_source_code_from_span a.source span]) ∧
    (∀ (a : StaticAnalyzer) (c : CallExpression) (span : Span),
      ∀ d ∈ check_return_value a c span,
        d.lines = [returnValueMessage (get_line_number a.source span.start),
                   get_source_code_from_span a.source span]) ∧
    (∀ (src : String) (span : Span), span.start ≤ span.stop →
      span.stop ≤ src.toList.length →
      ∃ sl sq : String,
        get_source_code_from_span src span = sl ++ "\n" ++ sq ∧
          sl.data.length = span.stop - span.start ∧
          sq.data.length = span.stop - span.start) := by
  refine ⟨fun n => ⟨"\x27goto\x27 statement found", ?_⟩,
    fun n => ⟨"\x27setjmp\x27 call found", ?_⟩,
    fun n => ⟨"\x27longjmp\x27 call found", ?_⟩,
    fun n => ⟨"Recursion found", ?_⟩,
    fun n => ⟨"Heap usage found", ?_⟩,
    fun n => ⟨"Function size exceeds 60 lines", ?_⟩,
    fun n => rfl, fun n => rfl, ?_, ?_, ?_⟩
  · unfold gotoMessage
    congr 1
  · unfold setjmpMessage
    congr 1
  · unfold longjmpMessage
    congr 1
  · unfold recursionMessage
    congr 1
  · unfold heapMessage
    congr 1
  · unfold functionSizeMessage
    congr 1
  · intro a c span d hd
    revert hd
    unfold check_heap_usage
    repeat' split
    all_goals intro hd
    all_goals simp_all
  · intro a c span d hd
    revert hd
    unfold check_return_value
    repeat' split
    all_goals intro hd
    all_goals simp_all
  · intro src span h1 h2
    refine ⟨String.mk ((src.toList.drop span.start).take (span.stop - span.start)),
      String.mk (List.replicate (span.stop - span.start) '^'), rfl, ?_, ?_⟩
    · show ((src.toList.drop span.start).take (span.stop - span.start)).length
        = span.stop - span.start
      rw [List.length_take, List.length_drop]
      omega
    · show (List.replicate (span.stop - span.start) '^').length
        = span.stop - span.start
      exact List.length_replicate ..

/-- Witness for C9 (amended): the excerpt decomposition at a concrete source
and span. -/
theorem C9_witness :
    (Span.mk 1 3).start ≤ (Span.mk 1 3).stop ∧
    (Span.mk 1 3).stop ≤ "abcd".toList.length ∧
    ∃ sl sq : String,
      get_source_code_from_span "abcd" ⟨1, 3⟩ = sl ++ "\n" ++ sq ∧
        sl.data.length = (Span.mk 1 3).stop - (Span.mk 1 3).start ∧
        sq.data.length = (Span.mk 1 3).stop - (Span.mk 1 3).start :=
  ⟨by decide, by decide,
    C9_amended_rendering.2.2.2.2.2.2.2.2.2.2 "abcd" ⟨1, 3⟩ (by decide)
      (by decide)⟩

end Nasa
